import Mathlib

/-!
Verification development for the halligan multi-stage planner/executor core.

Each Python module under `halligan/runtime` and `halligan/stages` is given a
shallow embedding below: pure functions become Lean functions, raised
exceptions become `Except`/explicit result constructors, and the mutable
frame tree and interpreter environment become explicit state passing.
External collaborators (the VLM agent, tool bodies, frame geometry) are
opaque in the source and appear here as oracle parameters or as definitions
modelled from the specification, each marked as such in its doc comment.
-/

namespace Halligan

/-! ## Error taxonomy (`halligan/runtime/errors.py`)

`HalliganError` is the base class; `ConfigError`, `ParseError`,
`ValidationError`, `UnsafeTargetError` and `ToolError` derive from it.
`Exc.pyErr` stands for any Python exception outside that hierarchy
(`AttributeError`, `IndexError`, `TypeError`, `RuntimeError`, ...). -/

inductive Exc where
  | configError (msg : String)
  | parseError (msg : String)
  | validationError (msg : String)
  | unsafeTarget (msg : String)
  | toolError (msg : String)
  | pyErr (msg : String)
deriving DecidableEq, Repr

/-- Whether the exception is an instance of the `HalliganError` base class. -/
def Exc.isHalligan : Exc → Bool
  | .pyErr _ => false
  | _ => true

/-! ## JSON values

`J` models the Python values produced by `json.loads`: `None`, `bool`,
`int`, `float`, `str`, `list`, `dict`.  Floats are kept as their source
lexeme (no claim depends on float arithmetic); `num` carries exact
integers. -/

inductive J where
  | null
  | bool (b : Bool)
  | num (n : Int)
  | flt (lit : String)
  | str (s : String)
  | arr (xs : List J)
  | obj (kvs : List (String × J))

/-- `dict.get(k)`: first-match lookup.  `loads` collapses duplicate keys on
insertion (last value wins, as Python dicts do), so association lists built
by it have distinct keys and first-match equals Python lookup. -/
def jGet (kvs : List (String × J)) (k : String) : Option J :=
  match kvs with
  | [] => none
  | (k0, v) :: rest => if k0 = k then some v else jGet rest k

/-- `dict.get(k, d)`. -/
def jGetD (kvs : List (String × J)) (k : String) (d : J) : J :=
  (jGet kvs k).getD d

/-- Python dict insertion: update the value in place if the key exists,
otherwise append. -/
def insertKV : List (String × J) → String → J → List (String × J)
  | [], k, v => [(k, v)]
  | (k0, v0) :: rest, k, v =>
    if k0 = k then (k0, v) :: rest else (k0, v0) :: insertKV rest k v

/-! ## Python string helpers -/

/-- The ASCII whitespace characters recognised by `str.strip()` and by the
regex class `\s` (unicode whitespace beyond ASCII is not modelled; no
claim involves it). -/
def pyWs : List Char := [' ', '\t', '\n', '\r', Char.ofNat 11, Char.ofNat 12]

/-- `str.strip()` restricted to ASCII whitespace. -/
def pyStrip (s : String) : String :=
  String.mk (((s.data.dropWhile (· ∈ pyWs)).reverse.dropWhile (· ∈ pyWs)).reverse)

/-! ## `json.loads` model

Modelled from the spec: the Python standard library `json` module is not
part of this repository.  This is a recursive-descent parser for the JSON
accepted by `json.loads` with its default (strict) settings: the literals
`null`/`true`/`false`, `NaN`/`Infinity`/`-Infinity` (kept as float
lexemes), numbers, double-quoted strings with the standard escapes,
arrays, and objects with string keys, with `[ \t\n\r]` whitespace skipped
between tokens and duplicate object keys collapsed last-wins.  `\uXXXX`
escapes are accepted only at valid unicode scalar values (Python also
accepts lone surrogates; no claim involves them).  The `fuel` argument
bounds the recursion depth; `loads` supplies more fuel than any input can
consume, so it never runs out. -/

def jsonWs : List Char := [' ', '\t', '\n', '\r']

def skipJsonWs (cs : List Char) : List Char := cs.dropWhile (· ∈ jsonWs)

/-- Match a literal character sequence, returning the rest. -/
def stripLit : List Char → List Char → Option (List Char)
  | [], cs => some cs
  | l :: ls, c :: cs => if c = l then stripLit ls cs else none
  | _ :: _, [] => none

def isDigit (c : Char) : Bool := '0' ≤ c ∧ c ≤ '9'

def digitsToNat (ds : List Char) : Nat :=
  ds.foldl (fun acc c => acc * 10 + (c.toNat - '0'.toNat)) 0

/-- Parse the integer-part digit run of a JSON number: `0` or
`[1-9][0-9]*`. -/
def takeIntDigits (cs : List Char) : Option (List Char × List Char) :=
  match cs with
  | [] => none
  | c :: rest =>
    if c = '0' then some ([c], rest)
    else if isDigit c then
      let ds := rest.takeWhile isDigit
      some (c :: ds, rest.drop ds.length)
    else none

/-- Parse a JSON number starting at `cs`; produces `J.num` for pure
integers and `J.flt` (carrying the lexeme) when a fraction or exponent is
present. -/
def parseNumber (cs : List Char) : Option (J × List Char) :=
  let (neg, cs1) := match cs with
    | '-' :: rest => (true, rest)
    | _ => (false, cs)
  match takeIntDigits cs1 with
  | none => none
  | some (ints, cs2) =>
    let (fracs, cs3) := match cs2 with
      | '.' :: rest =>
        let ds := rest.takeWhile isDigit
        if ds = [] then ([], cs2) else ('.' :: ds, rest.drop ds.length)
      | _ => ([], cs2)
    let hasFrac := fracs ≠ []
    let (exps, cs4) := match cs3 with
      | e :: rest =>
        if e = 'e' ∨ e = 'E' then
          let (sgn, rest1) := match rest with
            | s :: r1 => if s = '+' ∨ s = '-' then ([s], r1) else ([], rest)
            | [] => ([], rest)
          let ds := rest1.takeWhile isDigit
          if ds = [] then ([], cs3) else (e :: (sgn ++ ds), rest1.drop ds.length)
        else ([], cs3)
      | [] => ([], cs3)
    let hasExp := exps ≠ []
    if hasFrac ∨ hasExp then
      let lexeme := (if neg then ['-'] else []) ++ ints ++ fracs ++ exps
      some (J.flt (String.mk lexeme), cs4)
    else
      let n : Int := Int.ofNat (digitsToNat ints)
      some (J.num (if neg then -n else n), cs2)

def hexVal (c : Char) : Option Nat :=
  if isDigit c then some (c.toNat - '0'.toNat)
  else if 'a' ≤ c ∧ c ≤ 'f' then some (c.toNat - 'a'.toNat + 10)
  else if 'A' ≤ c ∧ c ≤ 'F' then some (c.toNat - 'A'.toNat + 10)
  else none

/-- Parse the body of a JSON string (the opening quote already consumed). -/
def parseStringBody (fuel : Nat) (acc : List Char) (cs : List Char) :
    Option (String × List Char) :=
  match fuel, cs with
  | 0, _ => none
  | _, [] => none
  | fuel + 1, c :: rest =>
    if c = '"' then some (String.mk acc.reverse, rest)
    else if c = '\\' then
      match rest with
      | [] => none
      | e :: rest1 =>
        if e = '"' then parseStringBody fuel ('"' :: acc) rest1
        else if e = '\\' then parseStringBody fuel ('\\' :: acc) rest1
        else if e = '/' then parseStringBody fuel ('/' :: acc) rest1
        else if e = 'b' then parseStringBody fuel (Char.ofNat 8 :: acc) rest1
        else if e = 'f' then parseStringBody fuel (Char.ofNat 12 :: acc) rest1
        else if e = 'n' then parseStringBody fuel ('\n' :: acc) rest1
        else if e = 'r' then parseStringBody fuel ('\r' :: acc) rest1
        else if e = 't' then parseStringBody fuel ('\t' :: acc) rest1
        else if e = 'u' then
          match rest1 with
          | h1 :: h2 :: h3 :: h4 :: rest2 =>
            match hexVal h1, hexVal h2, hexVal h3, hexVal h4 with
            | some a, some b, some c', some d =>
              let n := ((a * 16 + b) * 16 + c') * 16 + d
              if h : n.isValidChar then
                parseStringBody fuel (Char.ofNatAux n h :: acc) rest2
              else none
            | _, _, _, _ => none
          | _ => none
        else none
    else if c.toNat < 32 then none
    else parseStringBody fuel (c :: acc) rest

mutual

/-- Parse one JSON value at `cs` (no leading whitespace expected). -/
def parseJsonValue (fuel : Nat) (cs : List Char) : Option (J × List Char) :=
  match fuel with
  | 0 => none
  | fuel + 1 =>
    match cs with
    | [] => none
    | c :: rest =>
      if c = '"' then
        match parseStringBody fuel [] rest with
        | some (s, rest1) => some (J.str s, rest1)
        | none => none
      else if c = '{' then parseObjBody fuel [] (skipJsonWs rest) true
      else if c = '[' then parseArrBody fuel [] (skipJsonWs rest) true
      else
        match stripLit ['n', 'u', 'l', 'l'] cs with
        | some rest1 => some (J.null, rest1)
        | none =>
        match stripLit ['t', 'r', 'u', 'e'] cs with
        | some rest1 => some (J.bool true, rest1)
        | none =>
        match stripLit ['f', 'a', 'l', 's', 'e'] cs with
        | some rest1 => some (J.bool false, rest1)
        | none =>
        match stripLit ['N', 'a', 'N'] cs with
        | some rest1 => some (J.flt "nan", rest1)
        | none =>
        match stripLit ['I', 'n', 'f', 'i', 'n', 'i', 't', 'y'] cs with
        | some rest1 => some (J.flt "inf", rest1)
        | none =>
        match stripLit ['-', 'I', 'n', 'f', 'i', 'n', 'i', 't', 'y'] cs with
        | some rest1 => some (J.flt "-inf", rest1)
        | none => parseNumber cs

/-- Parse object members; `cs` has leading whitespace skipped.  `first`
distinguishes the state right after `{` (where `}` ends the object) from
the state right after a comma (where a key is required). -/
def parseObjBody (fuel : Nat) (acc : List (String × J)) (cs : List Char)
    (first : Bool) : Option (J × List Char) :=
  match fuel with
  | 0 => none
  | fuel + 1 =>
    match cs with
    | '}' :: rest => if first then some (J.obj acc, rest) else none
    | '"' :: rest =>
      match parseStringBody fuel [] rest with
      | none => none
      | some (key, rest1) =>
        match skipJsonWs rest1 with
        | ':' :: rest2 =>
          match parseJsonValue fuel (skipJsonWs rest2) with
          | none => none
          | some (v, rest3) =>
            let acc1 := insertKV acc key v
            match skipJsonWs rest3 with
            | ',' :: rest4 => parseObjBody fuel acc1 (skipJsonWs rest4) false
            | '}' :: rest4 => some (J.obj acc1, rest4)
            | _ => none
        | _ => none
    | _ => none

/-- Parse array elements; `cs` has leading whitespace skipped. -/
def parseArrBody (fuel : Nat) (acc : List J) (cs : List Char)
    (first : Bool) : Option (J × List Char) :=
  match fuel with
  | 0 => none
  | fuel + 1 =>
    match cs, first with
    | ']' :: rest, true => some (J.arr acc.reverse, rest)
    | _, _ =>
      match parseJsonValue fuel cs with
      | none => none
      | some (v, rest1) =>
        match skipJsonWs rest1 with
        | ',' :: rest2 => parseArrBody fuel (v :: acc) (skipJsonWs rest2) false
        | ']' :: rest2 => some (J.arr (v :: acc).reverse, rest2)
        | _ => none

end

/-- `json.loads`: parse a complete JSON document, allowing surrounding
whitespace, rejecting trailing garbage.  `none` models `JSONDecodeError`. -/
def loads (s : String) : Option J :=
  match parseJsonValue (s.length + 2) (skipJsonWs s.data) with
  | some (v, rest) => if skipJsonWs rest = [] then some v else none
  | none => none

/-! ## Response parser (`halligan/runtime/parser.py`) -/

/-- Python regex `\s` on ASCII (used by the fence pattern below). -/
def isReWs (c : Char) : Bool := c ∈ pyWs

/-- Whether `cs` begins with `\s*` followed by three backticks (the tail of
the fence pattern after the closing brace of group 1). -/
def closesFence (cs : List Char) : Bool :=
  match cs.dropWhile isReWs with
  | '`' :: '`' :: '`' :: _ => true
  | _ => false

/-- The lazy `\{.*?\}` of the fence pattern: scan forward for the first
position `j` holding `}` such that `\s*` then three backticks follow, and
return the brace-delimited span (group 1 without its opening brace).
Lazy matching with backtracking tries close positions left to right, which
is exactly this scan. -/
def lazyBraceTo : List Char → Option (List Char)
  | [] => none
  | c :: rest =>
    if c = '}' ∧ closesFence rest then some ['}']
    else match lazyBraceTo rest with
      | some tail => some (c :: tail)
      | none => none

/-- Try to match `(?:json)?\s*(\{.*?\})\s*```  at the start of `cs` (the
three opening backticks already consumed), given whether the optional
`json` (case-insensitive) was consumed.  Returns group 1. -/
def fenceAfterTicks (cs : List Char) : Option (List Char) :=
  match cs.dropWhile isReWs with
  | '{' :: rest =>
    match lazyBraceTo rest with
    | some tail => some ('{' :: tail)
    | none => none
  | _ => none

/-- Try to match the full fence pattern at the start of `cs`.  The regex
engine first tries to consume the optional `json` and falls back to the
empty alternative. -/
def fenceAt (cs : List Char) : Option (List Char) :=
  match cs with
  | '`' :: '`' :: '`' :: rest =>
    let withJson :=
      match rest with
      | j :: s :: o :: n :: rest1 =>
        if j.toLower = 'j' ∧ s.toLower = 's' ∧ o.toLower = 'o' ∧ n.toLower = 'n' then
          fenceAfterTicks rest1
        else none
      | _ => none
    match withJson with
    | some g => some g
    | none => fenceAfterTicks rest
  | _ => none

/-- `_JSON_FENCE_RE.search`: leftmost match wins.  Returns group 1. -/
def fenceSearch : List Char → Option String
  | [] => none
  | c :: rest =>
    match fenceAt (c :: rest) with
    | some g => some (String.mk g)
    | none => fenceSearch rest

/-- Best-effort extraction: the slice of `raw` from the first `{` to the
last `}` inclusive, provided the last `}` comes strictly after the first
`{` (`start != -1 and end != -1 and end > start`). -/
def braceSlice (raw : String) : Option String :=
  let cs := raw.data
  match cs.findIdx? (· = '{') with
  | none => none
  | some start =>
    match cs.reverse.findIdx? (· = '}') with
    | none => none
    | some rIdx =>
      let stop := cs.length - 1 - rIdx
      if start < stop then some (String.mk ((cs.drop start).take (stop + 1 - start)))
      else none

/-- `parse_json_from_response`: try the trimmed text, then a fenced block,
then the first-`{`-to-last-`}` slice.  The input is `Option String`
because the Python argument may be `None`.  Error payloads carry the
source's message prefixes (the appended decoder detail is not modelled). -/
def parse_json_from_response (t : Option String) : Except Exc J :=
  match t with
  | none => .error (.parseError "Empty response (None)")
  | some text =>
    let raw := pyStrip text
    if raw = "" then .error (.parseError "Empty response")
    else
      match loads raw with
      | some v => .ok v
      | none =>
        match fenceSearch raw.data with
        | some candidate =>
          match loads (pyStrip candidate) with
          | some v => .ok v
          | none => .error (.parseError "Failed to parse fenced JSON")
        | none =>
          match braceSlice raw with
          | some candidate =>
            match loads candidate with
            | some v => .ok v
            | none => .error (.parseError "Failed to parse extracted JSON")
          | none => .error (.parseError "No JSON object found in response")

/-! ## Runtime configuration (`halligan/runtime/config.py`) -/

/-- Modelled from the spec: `urllib.parse.urlparse` is standard library,
not repository code.  A scheme is recognised when the text before the
first `:` is a letter followed by letters, digits, `+`, `-` or `.`;
the result is lowercased (as `ParseResult.scheme` is). -/
def urlSchemeSplit (s : String) : String × String :=
  let cs := s.data
  let pre := cs.takeWhile (· ≠ ':')
  if pre.length < cs.length ∧ pre ≠ [] ∧
      (pre.headI.isAlpha ∧ (pre.all fun c => c.isAlphanum ∨ c = '+' ∨ c = '-' ∨ c = '.')) then
    (String.mk (pre.map Char.toLower), String.mk (cs.drop (pre.length + 1)))
  else ("", s)

/-- Modelled from the spec: the `netloc` of a URL — present only after a
literal `//`, extending to the next `/`, `?` or `#`. -/
def urlNetloc (rest : String) : String :=
  match rest.data with
  | '/' :: '/' :: tail => String.mk (tail.takeWhile fun c => c ≠ '/' ∧ c ≠ '?' ∧ c ≠ '#')
  | _ => ""

/-- Modelled from the spec: `ParseResult.hostname` — strip userinfo at the
last `@`, strip a `:port` suffix (IPv6 brackets are kept simple: the
bracketed text), lowercase. -/
def urlHostname (netloc : String) : String :=
  let cs := netloc.data
  let hostinfo := if cs.contains '@' then (cs.reverse.takeWhile (· ≠ '@')).reverse else cs
  let host :=
    match hostinfo with
    | '[' :: tail => '[' :: (tail.takeWhile (· ≠ ']')) ++ [']']
    | _ => hostinfo.takeWhile (· ≠ ':')
  String.mk (host.map Char.toLower)

def _DEFAULT_ALLOWED_BENCHMARK_HOSTS : List String :=
  ["localhost", "127.0.0.1", "0.0.0.0", "host.docker.internal"]

/-- `_is_local_http_url`. -/
def _is_local_http_url (url : String) : Bool :=
  let (scheme, rest) := urlSchemeSplit url
  if scheme ≠ "http" ∧ scheme ≠ "https" then false
  else
    let host := pyStrip (urlHostname (urlNetloc rest))
    _DEFAULT_ALLOWED_BENCHMARK_HOSTS.contains host

/-- `RuntimeConfig` (the dataclass fields; `None` becomes `none`). -/
structure RuntimeConfig where
  openai_api_key : Option String
  browser_url : Option String
  benchmark_url : Option String
  benchmark_http_url : Option String
  allow_nonlocal_benchmark : Bool
deriving DecidableEq, Repr

/-- Python truthiness of an optional string (`None` and `""` are falsy). -/
def optTruthy : Option String → Bool
  | none => false
  | some s => s ≠ ""

/-- `RuntimeConfig.validate`. -/
def RuntimeConfig.validate (c : RuntimeConfig) : Except Exc Unit :=
  if optTruthy c.benchmark_url ∧ ¬c.allow_nonlocal_benchmark ∧
      ¬_is_local_http_url (c.benchmark_url.getD "") then
    .error (.unsafeTarget ("Detected non-local BENCHMARK_URL: " ++ c.benchmark_url.getD ""))
  else if optTruthy c.benchmark_http_url ∧ ¬c.allow_nonlocal_benchmark ∧
      ¬_is_local_http_url (c.benchmark_http_url.getD "") then
    .error (.unsafeTarget ("Detected non-local BENCHMARK_HTTP_URL: " ++ c.benchmark_http_url.getD ""))
  else .ok ()

/-! ## Schema validators (`halligan/runtime/schemas.py`)

The `_require_*` helpers take the `Option J` produced by `dict.get`: an
absent key gives Python `None`, which fails the `isinstance` checks the
same way an explicit JSON `null` does, so `none` and `some J.null` are
rejected alike.  Error payloads carry the JSONPath position; the
`, got {type}` suffix of the source messages is not modelled. -/

def _require_dict (v : Option J) (path : String) : Except Exc (List (String × J)) :=
  match v with
  | some (J.obj kvs) => .ok kvs
  | _ => .error (.validationError ("Expected object at " ++ path))

def _require_list (v : Option J) (path : String) : Except Exc (List J) :=
  match v with
  | some (J.arr xs) => .ok xs
  | _ => .error (.validationError ("Expected array at " ++ path))

def _require_str (v : Option J) (path : String) : Except Exc String :=
  match v with
  | some (J.str s) => .ok s
  | _ => .error (.validationError ("Expected string at " ++ path))

/-- `_require_int` uses `isinstance(value, int)`, which is satisfied by
Python booleans (`bool` is a subclass of `int`): `True` passes and
compares/indexes as `1`, `False` as `0`.  Floats are rejected. -/
def _require_int (v : Option J) (path : String) : Except Exc Int :=
  match v with
  | some (J.num n) => .ok n
  | some (J.bool b) => .ok (if b then 1 else 0)
  | _ => .error (.validationError ("Expected integer at " ++ path))

def _require_bool (v : Option J) (path : String) : Except Exc Bool :=
  match v with
  | some (J.bool b) => .ok b
  | _ => .error (.validationError ("Expected boolean at " ++ path))

def _require_one_of (value : String) (allowed : List String) (path : String) :
    Except Exc String :=
  if allowed.contains value then .ok value
  else .error (.validationError ("Invalid value at " ++ path))

def _require_optional_int (v : Option J) (path : String) : Except Exc (Option Int) :=
  match v with
  | none => .ok none
  | some J.null => .ok none
  | other => (_require_int other path).map some

/-- Modelled from the spec: `halligan/utils/constants.py` is not in the
sources; the spec lists the frame-level interactable tags
(`CLICKABLE, SELECTABLE, POINTABLE, INPUTTABLE, SLIDEABLE_X, SLIDEABLE_Y,
DRAGGABLE, SWAPPABLE, NEXT`) and says the element-level set is the same
minus frame-only members without naming those members; both sets are kept
equal here.  No claim below depends on the exact membership of either
set beyond tags also used by the repository's tests (`SELECTABLE`,
`SWAPPABLE`). -/
def _FRAME_INTERACTABLES : List String :=
  ["CLICKABLE", "SELECTABLE", "POINTABLE", "INPUTTABLE", "SLIDEABLE_X",
   "SLIDEABLE_Y", "DRAGGABLE", "SWAPPABLE", "NEXT"]

/-- Modelled from the spec: see `_FRAME_INTERACTABLES`. -/
def _ELEMENT_INTERACTABLES : List String := _FRAME_INTERACTABLES

/-! ### Stage 1 -/

structure Stage1Relation where
  src : Int
  dst : Option Int
  relationship : String
deriving DecidableEq, Repr

structure Stage1Result where
  descriptions : List String
  relations : List Stage1Relation
  objective : String
deriving DecidableEq, Repr

/-- The `for i, d in enumerate(descriptions)` loop of `validate_stage1`. -/
def validateDescriptions (ds : List J) (i : Nat) : Except Exc (List String) :=
  match ds with
  | [] => .ok []
  | d :: rest => do
    let s ← _require_str (some d) ("$.descriptions[" ++ toString i ++ "]")
    let tail ← validateDescriptions rest (i + 1)
    .ok (pyStrip s :: tail)

/-- The `for i, rel in enumerate(relations_raw)` loop of `validate_stage1`. -/
def validateRelations (rels : List J) (i : Nat) (frames : Nat) :
    Except Exc (List Stage1Relation) :=
  match rels with
  | [] => .ok []
  | rel :: rest => do
    let p := "$.relations[" ++ toString i ++ "]"
    let relObj ← _require_dict (some rel) p
    let src ← _require_int (jGet relObj "from") (p ++ ".from")
    let dst ← _require_optional_int (jGet relObj "to") (p ++ ".to")
    let relationship ← _require_str (some (jGetD relObj "relationship" (J.str "")))
      (p ++ ".relationship")
    if ¬(0 ≤ src ∧ src < (frames : Int)) then
      .error (.validationError (p ++ ".from out of range"))
    else
      match dst with
      | some d =>
        if ¬(0 ≤ d ∧ d < (frames : Int)) then
          .error (.validationError (p ++ ".to out of range"))
        else do
          let tail ← validateRelations rest (i + 1) frames
          .ok (⟨src, dst, pyStrip relationship⟩ :: tail)
      | none => do
        let tail ← validateRelations rest (i + 1) frames
        .ok (⟨src, none, pyStrip relationship⟩ :: tail)

/-- `validate_stage1`. -/
def validate_stage1 (data : J) (frames : Nat) : Except Exc Stage1Result := do
  let obj ← _require_dict (some data) "$"
  let descriptions ← _require_list (jGet obj "descriptions") "$.descriptions"
  if descriptions.length ≠ frames then
    .error (.validationError "$.descriptions length mismatch")
  else do
    let descOut ← validateDescriptions descriptions 0
    let relationsRaw ← _require_list (some (jGetD obj "relations" (J.arr []))) "$.relations"
    let relOut ← validateRelations relationsRaw 0 frames
    let objective ← _require_str (jGet obj "objective") "$.objective"
    let objective := pyStrip objective
    if objective = "" then .error (.validationError "$.objective must be non-empty")
    else .ok ⟨descOut, relOut, objective⟩

/-! ### Stage 2 -/

/-- `Stage2Action`: the source stores `type` plus a payload dict; the four
validated shapes are kept as a sum.  Frame ids keep the validated Python
value (booleans index and compare as 0/1, so they are carried as such). -/
inductive Stage2Action where
  | set_frame (frame : Int) (interactable : String)
  | split_frame (frame : Int) (rows : Int) (columns : Int) (mark_as : String)
  | grid_frame (frame : Int) (tiles : Int) (mark_as : String)
  | get_element (frame : Int) (position : String) (details : String) (mark_as : String)
deriving DecidableEq, Repr

def Stage2Action.frameId : Stage2Action → Int
  | .set_frame f _ => f
  | .split_frame f _ _ _ => f
  | .grid_frame f _ _ => f
  | .get_element f _ _ _ => f

structure Stage2Plan where
  actions : List Stage2Action
deriving DecidableEq, Repr

def _POSITIONS : List String := ["up", "down", "left", "right", "all"]

/-- The `for i, item in enumerate(actions_raw)` loop of `validate_stage2`. -/
def validateStage2Actions (items : List J) (i : Nat) (frames : Nat) :
    Except Exc (List Stage2Action) :=
  match items with
  | [] => .ok []
  | item :: rest => do
    let p := "$.actions[" ++ toString i ++ "]"
    let actionObj ← _require_dict (some item) p
    let actionType ← _require_str (jGet actionObj "type") (p ++ ".type")
    let actionType ← _require_one_of actionType
      ["set_frame", "split_frame", "grid_frame", "get_element"] (p ++ ".type")
    let frameId ← _require_int (jGet actionObj "frame") (p ++ ".frame")
    if ¬(0 ≤ frameId ∧ frameId < (frames : Int)) then
      .error (.validationError (p ++ ".frame out of range"))
    else do
      let action ←
        if actionType = "set_frame" then do
          let interactable ← _require_str (jGet actionObj "interactable") (p ++ ".interactable")
          let _ ← _require_one_of interactable _FRAME_INTERACTABLES (p ++ ".interactable")
          pure (Stage2Action.set_frame frameId interactable)
        else if actionType = "split_frame" then do
          let rows ← _require_int (jGet actionObj "rows") (p ++ ".rows")
          let columns ← _require_int (jGet actionObj "columns") (p ++ ".columns")
          let mark ← _require_str (jGet actionObj "mark_as") (p ++ ".mark_as")
          let _ ← _require_one_of mark _FRAME_INTERACTABLES (p ++ ".mark_as")
          if rows ≤ 0 ∨ columns ≤ 0 then
            throw (Exc.validationError (p ++ " rows/columns must be positive"))
          else pure (Stage2Action.split_frame frameId rows columns mark)
        else if actionType = "grid_frame" then do
          let tiles ← _require_int (jGet actionObj "tiles") (p ++ ".tiles")
          let mark ← _require_str (jGet actionObj "mark_as") (p ++ ".mark_as")
          let _ ← _require_one_of mark _ELEMENT_INTERACTABLES (p ++ ".mark_as")
          if tiles ≤ 0 then
            throw (Exc.validationError (p ++ ".tiles must be positive"))
          else pure (Stage2Action.grid_frame frameId tiles mark)
        else do
          let position ← _require_str (jGet actionObj "position") (p ++ ".position")
          let _ ← _require_one_of position _POSITIONS (p ++ ".position")
          let details ← _require_str (jGet actionObj "details") (p ++ ".details")
          let details := pyStrip details
          if details = "" then
            throw (Exc.validationError (p ++ ".details must be non-empty"))
          else do
            let mark ← _require_str (jGet actionObj "mark_as") (p ++ ".mark_as")
            let _ ← _require_one_of mark _ELEMENT_INTERACTABLES (p ++ ".mark_as")
            pure (Stage2Action.get_element frameId position details mark)
      let tail ← validateStage2Actions rest (i + 1) frames
      .ok (action :: tail)

/-- `validate_stage2`. -/
def validate_stage2 (data : J) (frames : Nat) : Except Exc Stage2Plan := do
  let obj ← _require_dict (some data) "$"
  let actionsRaw ← _require_list (jGet obj "actions") "$.actions"
  let actions ← validateStage2Actions actionsRaw 0 frames
  .ok ⟨actions⟩

/-! ### Stage 3 -/

/-- `Stage3Program`: validation is intentionally shallow; steps stay raw. -/
structure Stage3Program where
  steps : List J

/-- The per-step check loop of `validate_stage3`. -/
def validateStage3Steps (steps : List J) (i : Nat) : Except Exc Unit :=
  match steps with
  | [] => .ok ()
  | step :: rest => do
    let p := "$.steps[" ++ toString i ++ "]"
    let stepObj ← _require_dict (some step) p
    let _ ← _require_str (jGet stepObj "op") (p ++ ".op")
    validateStage3Steps rest (i + 1)

/-- `validate_stage3`. -/
def validate_stage3 (data : J) : Except Exc Stage3Program := do
  let obj ← _require_dict (some data) "$"
  let steps ← _require_list (jGet obj "steps") "$.steps"
  let _ ← validateStage3Steps steps 0
  .ok ⟨steps⟩

/-! ## Stage-2 applier (`halligan/runtime/executor.py`, lines 13-86)

The `Frame` tree is external (`halligan/utils/layout.py` is not in the
sources).  For the post-condition check only three observables matter: the
frame-level `interactable` tag, the tags of the `Element`s in the frame's
`interactables` list, and the `subframes`.  Elements are therefore
modelled by their optional tag. -/

inductive Frame where
  | mk (interactable : Option String) (elements : List (Option String)) (subframes : List Frame)

def Frame.interactable : Frame → Option String
  | .mk i _ _ => i

def Frame.elements : Frame → List (Option String)
  | .mk _ e _ => e

def Frame.subframes : Frame → List Frame
  | .mk _ _ s => s

/-- Python truthiness of an optional tag (`if frame.interactable:` skips
both `None` and the empty string). -/
def tagObs (o : Option String) : List String :=
  match o with
  | some t => if t = "" then [] else [t]
  | none => []

/-- The tags contributed by one frame itself: its own tag followed by the
tags of the elements in its `interactables` list. -/
def Frame.ownTags : Frame → List String
  | .mk i els _ => tagObs i ++ els.flatMap tagObs

/-- Total number of frames in a tree (the breadth-first queue measure). -/
def Frame.weight : Frame → Nat
  | .mk _ _ subs => 1 + (subs.attach.map fun s => Frame.weight s.1).sum
decreasing_by
  have := List.sizeOf_lt_of_mem s.2
  simp_wf
  omega

theorem Frame.weight_def (i : Option String) (e : List (Option String)) (s : List Frame) :
    Frame.weight (Frame.mk i e s) = 1 + (s.map Frame.weight).sum := by
  rw [Frame.weight]
  congr 1
  rw [List.attach_map_coe]

/-- The breadth-first queue walk of `_collect_interactables`, returning
the observed tags in visit order.  The source inserts each observation
into a set and bumps a counter for `NEXT`; both are recovered from this
list below, which is equivalent because set insertion and counting
commute with the traversal. -/
def collectQueue : List Frame → List String
  | [] => []
  | f :: queue => f.ownTags ++ collectQueue (queue ++ f.subframes)
termination_by queue => (queue.map Frame.weight).sum
decreasing_by
  cases f with
  | mk i e s =>
    simp [Frame.weight_def, Frame.subframes]
    omega

/-- `_collect_interactables`: the set of observed interactable type names
(as a duplicate-free list) and the number of `NEXT` occurrences. -/
def _collect_interactables (frames : List Frame) : List String × Nat :=
  let obs := collectQueue frames
  (obs.dedup, obs.count "NEXT")

/-- Specification-side reading of the same walk, written the way the
claim states it: the tags of a frame, of its interactable elements, and
recursively of its subframes. -/
def Frame.tagsRec : Frame → List String
  | .mk i els subs =>
    tagObs i ++ els.flatMap tagObs ++ (subs.attach.map fun s => Frame.tagsRec s.1).flatten
decreasing_by
  have := List.sizeOf_lt_of_mem s.2
  simp_wf
  omega

theorem Frame.tagsRec_def (i : Option String) (e : List (Option String)) (s : List Frame) :
    Frame.tagsRec (Frame.mk i e s) =
      tagObs i ++ e.flatMap tagObs ++ (s.map Frame.tagsRec).flatten := by
  rw [Frame.tagsRec]
  congr 1
  rw [List.attach_map_coe]

/-- All tags of a frame list, depth-first. -/
def framesTags (frames : List Frame) : List String :=
  (frames.map Frame.tagsRec).flatten

/-! ### Modelled frame operations

Modelled from the spec: the bodies of `Frame.set_frame_as`, `split`,
`grid`, `get_element` and `Element.set_element_as` live in
`halligan/utils/layout.py`, which is not in the sources.  Per the spec
(§3) and the in-repo test double (`tests/test_executor.py`):
`set_frame_as` sets the frame tag; `split(rows, columns)` replaces the
subframes with `rows*columns` fresh frames, each of which the applier
then tags with `mark_as`; `grid(tiles)` yields `tiles` fresh elements
which `set_element_as` tags and appends to the parent's `interactables`;
`get_element` yields one fresh element, tagged and appended likewise. -/

def Frame.set_frame_as (f : Frame) (tag : String) : Frame :=
  .mk (some tag) f.elements f.subframes

def Frame.splitMark (f : Frame) (rows columns : Int) (mark : String) : Frame :=
  .mk f.interactable f.elements
    (List.replicate (rows.toNat * columns.toNat) (Frame.mk (some mark) [] []))

def Frame.gridMark (f : Frame) (tiles : Int) (mark : String) : Frame :=
  .mk f.interactable (f.elements ++ List.replicate tiles.toNat (some mark)) f.subframes

def Frame.getElementMark (f : Frame) (mark : String) : Frame :=
  .mk f.interactable (f.elements ++ [some mark]) f.subframes

/-- One iteration of the `for action in plan.actions` loop of
`apply_stage2_plan`.  `frames[frame_id]` raises `IndexError` when the id
is out of range (validated plans are always in range; Python's negative
indexing is not modelled since validation forbids negatives). -/
def applyAction (frames : List Frame) (a : Stage2Action) : Except Exc (List Frame) :=
  let fid := a.frameId
  if h : 0 ≤ fid ∧ fid.toNat < frames.length then
    let f := frames.get ⟨fid.toNat, h.2⟩
    match a with
    | .set_frame _ tag => .ok (frames.set fid.toNat (f.set_frame_as tag))
    | .split_frame _ rows columns mark => .ok (frames.set fid.toNat (f.splitMark rows columns mark))
    | .grid_frame _ tiles mark => .ok (frames.set fid.toNat (f.gridMark tiles mark))
    | .get_element _ _ _ mark => .ok (frames.set fid.toNat (f.getElementMark mark))
  else .error (.pyErr "IndexError: frame id out of range")

def applyActions (frames : List Frame) (actions : List Stage2Action) :
    Except Exc (List Frame) :=
  match actions with
  | [] => .ok frames
  | a :: rest => do
    let fs ← applyAction frames a
    applyActions fs rest

/-- `apply_stage2_plan`: apply every action in order, then enforce the
post-condition.  The Python function returns `None` and mutates `frames`
in place; the mutated tree is returned here so the post-condition can be
stated about it. -/
def apply_stage2_plan (frames : List Frame) (plan : Stage2Plan) :
    Except Exc (List Frame) := do
  let fs ← applyActions frames plan.actions
  let (types, next_count) := _collect_interactables fs
  let non_next := types.filter (· ≠ "NEXT")
  if non_next.length ≠ 1 then
    .error (.validationError "Stage 2 must result in exactly one non-NEXT interactable type")
  else if next_count > 1 then
    .error (.validationError "Stage 2 must have at most one NEXT interactable")
  else .ok fs

/-! ## Supporting lemmas for the Stage-2 post-condition -/

/-- Inversion for `Except` bind. -/
theorem exbind_ok {α β : Type} {x : Except Exc α} {f : α → Except Exc β} {b : β}
    (h : (x >>= f) = .ok b) : ∃ a, x = .ok a ∧ f a = .ok b := by
  cases x with
  | error e => simp [Bind.bind, Except.bind] at h
  | ok a => exact ⟨a, rfl, by simpa [Bind.bind, Except.bind] using h⟩

/-- The breadth-first walk observes the same tags, up to order, as the
depth-first spec-side reading. -/
theorem collectQueue_perm (queue : List Frame) :
    List.Perm (collectQueue queue) ((queue.map Frame.tagsRec).flatten) := by
  induction queue using collectQueue.induct with
  | case1 => simp [collectQueue]
  | case2 f q ih =>
    rw [collectQueue]
    cases f with
    | mk i e s =>
      have ih2 : List.Perm (collectQueue (q ++ (Frame.mk i e s).subframes))
          ((q.map Frame.tagsRec).flatten ++ (s.map Frame.tagsRec).flatten) := by
        simpa [Frame.subframes] using ih
      have hcomm : List.Perm
          ((q.map Frame.tagsRec).flatten ++ (s.map Frame.tagsRec).flatten)
          ((s.map Frame.tagsRec).flatten ++ (q.map Frame.tagsRec).flatten) :=
        List.perm_append_comm
      have := List.Perm.append_left (Frame.ownTags (Frame.mk i e s)) (ih2.trans hcomm)
      simpa [Frame.ownTags, Frame.tagsRec_def, List.append_assoc] using this

/-- Deduplicating then filtering gives as many elements as filtering then
deduplicating. -/
theorem dedup_filter_length (l : List String) (p : String → Bool) :
    (l.dedup.filter p).length = ((l.filter p).dedup).length := by
  have h1 : (l.dedup.filter p).Nodup := (List.nodup_dedup l).filter p
  have h2 : ((l.filter p).dedup).Nodup := List.nodup_dedup _
  rw [← List.toFinset_card_of_nodup h1, ← List.toFinset_card_of_nodup h2]
  congr 1
  ext x
  simp [List.mem_filter, List.mem_dedup]

/-- A frame action whose id is in range applies successfully and
preserves the number of top-level frames. -/
theorem applyAction_ok {frames : List Frame} {a : Stage2Action}
    (h0 : 0 ≤ a.frameId) (h1 : a.frameId < (frames.length : Int)) :
    ∃ gs, applyAction frames a = .ok gs ∧ gs.length = frames.length := by
  have hlt : a.frameId.toNat < frames.length := by omega
  simp only [applyAction]
  rw [dif_pos ⟨h0, hlt⟩]
  cases a <;> exact ⟨_, rfl, by simp⟩

/-- A plan whose ids are all in range applies successfully. -/
theorem applyActions_ok {frames : List Frame} {acts : List Stage2Action}
    (h : ∀ a ∈ acts, 0 ≤ a.frameId ∧ a.frameId < (frames.length : Int)) :
    ∃ gs, applyActions frames acts = .ok gs := by
  induction acts generalizing frames with
  | nil => exact ⟨frames, rfl⟩
  | cons a rest ih =>
    obtain ⟨h0, h1⟩ := h a (by simp)
    obtain ⟨gs, hgs, hlen⟩ := applyAction_ok h0 h1
    obtain ⟨fs, hfs⟩ := @ih gs (by
      intro b hb
      have hbb := h b (by simp [hb])
      rw [hlen]
      exact hbb)
    exact ⟨fs, by simp [applyActions, hgs, hfs, Bind.bind, Except.bind]⟩

/-- Every action produced by `validate_stage2`'s loop has its frame id in
`[0, frames)`. -/
theorem validateStage2Actions_range (items : List J) (i n : Nat) (acts : List Stage2Action)
    (h : validateStage2Actions items i n = .ok acts) :
    ∀ a ∈ acts, 0 ≤ a.frameId ∧ a.frameId < (n : Int) := by
  induction items generalizing i acts with
  | nil =>
    simp only [validateStage2Actions] at h
    cases h
    simp
  | cons item rest ih =>
    simp only [validateStage2Actions] at h
    obtain ⟨actionObj, h1, h⟩ := exbind_ok h
    obtain ⟨ty0, h2, h⟩ := exbind_ok h
    obtain ⟨ty, h3, h⟩ := exbind_ok h
    obtain ⟨fid, h4, h⟩ := exbind_ok h
    split at h
    · exact absurd h (by simp)
    · rename_i hguard
      push_neg at hguard
      have finish : ∀ (y : Stage2Action) (tail : List Stage2Action),
          y.frameId = fid → validateStage2Actions rest (i + 1) n = .ok tail →
          acts = y :: tail → ∀ a ∈ acts, 0 ≤ a.frameId ∧ a.frameId < (n : Int) := by
        intro y tail hy hT hacts a ha
        subst hacts
        rcases List.mem_cons.mp ha with rfl | ha
        · rw [hy]; exact ⟨hguard.1, hguard.2⟩
        · exact ih _ _ hT a ha
      clear ih
      split at h
      · obtain ⟨s1, _, h⟩ := exbind_ok h
        obtain ⟨s2, _, h⟩ := exbind_ok h
        obtain ⟨y, hy, h⟩ := exbind_ok h
        obtain ⟨tail, hT, h⟩ := exbind_ok h
        refine finish y tail ?_ hT (by simpa using h.symm)
        have : Stage2Action.set_frame fid s1 = y := by simpa [pure, Except.pure] using hy
        simp [← this, Stage2Action.frameId]
      · split at h
        · obtain ⟨r1, _, h⟩ := exbind_ok h
          obtain ⟨c1, _, h⟩ := exbind_ok h
          obtain ⟨m1, _, h⟩ := exbind_ok h
          obtain ⟨m2, _, h⟩ := exbind_ok h
          split at h
          · obtain ⟨y, hy, h⟩ := exbind_ok h
            exact absurd hy (by simp [throw, throwThe, MonadExceptOf.throw])
          · obtain ⟨y, hy, h⟩ := exbind_ok h
            obtain ⟨tail, hT, h⟩ := exbind_ok h
            refine finish y tail ?_ hT (by simpa using h.symm)
            have : Stage2Action.split_frame fid r1 c1 m1 = y := by
              simpa [pure, Except.pure] using hy
            simp [← this, Stage2Action.frameId]
        · split at h
          · obtain ⟨t1, _, h⟩ := exbind_ok h
            obtain ⟨m1, _, h⟩ := exbind_ok h
            obtain ⟨m2, _, h⟩ := exbind_ok h
            split at h
            · obtain ⟨y, hy, h⟩ := exbind_ok h
              exact absurd hy (by simp [throw, throwThe, MonadExceptOf.throw])
            · obtain ⟨y, hy, h⟩ := exbind_ok h
              obtain ⟨tail, hT, h⟩ := exbind_ok h
              refine finish y tail ?_ hT (by simpa using h.symm)
              have : Stage2Action.grid_frame fid t1 m1 = y := by
                simpa [pure, Except.pure] using hy
              simp [← this, Stage2Action.frameId]
          · obtain ⟨p1, _, h⟩ := exbind_ok h
            obtain ⟨p2, _, h⟩ := exbind_ok h
            obtain ⟨d1, _, h⟩ := exbind_ok h
            split at h
            · obtain ⟨y, hy, h⟩ := exbind_ok h
              exact absurd hy (by simp [throw, throwThe, MonadExceptOf.throw])
            · obtain ⟨m1, _, h⟩ := exbind_ok h
              obtain ⟨m2, _, h⟩ := exbind_ok h
              obtain ⟨y, hy, h⟩ := exbind_ok h
              obtain ⟨tail, hT, h⟩ := exbind_ok h
              refine finish y tail ?_ hT (by simpa using h.symm)
              have : Stage2Action.get_element fid p1 (pyStrip d1) m1 = y := by
                simpa [pure, Except.pure] using hy
              simp [← this, Stage2Action.frameId]

/-- The source-side post-condition quantities equal the claim-side ones:
the walk's deduplicated non-NEXT tag count and NEXT count agree with the
recursive reading of the tree. -/
theorem collect_bridge (fs : List Frame) :
    ((collectQueue fs).dedup.filter (fun t => t ≠ "NEXT")).length
      = ((framesTags fs).filter (fun t => t ≠ "NEXT")).dedup.length ∧
    (collectQueue fs).count "NEXT" = (framesTags fs).count "NEXT" := by
  have hperm : List.Perm (collectQueue fs) (framesTags fs) := by
    simpa [framesTags] using collectQueue_perm fs
  constructor
  · rw [dedup_filter_length]
    exact ((hperm.filter _).dedup).length_eq
  · exact hperm.count_eq _

/-- C1: for every frame list and validated `Stage2Plan`, applying the
plan's actions succeeds; when `apply_stage2_plan` returns without
raising, the tags collected over every frame, its interactable elements
and recursively its subframes contain exactly one distinct tag other
than `NEXT`, and `NEXT` occurs at most once in the whole tree; and when
that post-condition fails on the applied tree, `apply_stage2_plan`
raises a `ValidationError`. -/
theorem stage2_postcondition_enforced (data : J) (n : Nat) (frames : List Frame)
    (plan : Stage2Plan) (hv : validate_stage2 data n = .ok plan)
    (hn : frames.length = n) :
    (∃ fs, applyActions frames plan.actions = .ok fs) ∧
    (∀ fs, apply_stage2_plan frames plan = .ok fs →
      ((framesTags fs).filter (fun t => t ≠ "NEXT")).dedup.length = 1 ∧
      (framesTags fs).count "NEXT" ≤ 1) ∧
    (∀ fs, applyActions frames plan.actions = .ok fs →
      ¬(((framesTags fs).filter (fun t => t ≠ "NEXT")).dedup.length = 1 ∧
        (framesTags fs).count "NEXT" ≤ 1) →
      ∃ msg, apply_stage2_plan frames plan = .error (.validationError msg)) := by
  simp only [validate_stage2] at hv
  obtain ⟨obj, h1, hv⟩ := exbind_ok hv
  obtain ⟨actionsRaw, h2, hv⟩ := exbind_ok hv
  obtain ⟨actions, h3, hv⟩ := exbind_ok hv
  have hplan : plan = ⟨actions⟩ := by simpa [pure, Except.pure] using hv.symm
  subst hplan
  have hrange := validateStage2Actions_range _ _ _ _ h3
  refine ⟨applyActions_ok (by rw [hn]; exact hrange), ?_, ?_⟩
  · intro fs hok
    simp only [apply_stage2_plan] at hok
    obtain ⟨fs0, ha, hok⟩ := exbind_ok hok
    simp only [_collect_interactables] at hok
    split at hok
    · exact absurd hok (by simp)
    · split at hok
      · exact absurd hok (by simp)
      · rename_i hlen hcount
        have hfs : fs0 = fs := by simpa [pure, Except.pure] using hok
        subst hfs
        obtain ⟨b1, b2⟩ := collect_bridge fs0
        constructor
        · rw [← b1]; omega
        · rw [← b2]; omega
  · intro fs ha hnot
    simp only [apply_stage2_plan, ha, Bind.bind, Except.bind, _collect_interactables]
    obtain ⟨b1, b2⟩ := collect_bridge fs
    by_cases hlen : ((collectQueue fs).dedup.filter (fun t => t ≠ "NEXT")).length = 1
    · rw [if_neg (by omega)]
      rw [if_pos]
      · exact ⟨_, rfl⟩
      · rw [← b1, ← b2] at hnot
        omega
    · rw [if_pos (by omega)]
      exact ⟨_, rfl⟩

/-- Witness for C1 at a concrete validated one-action plan on a
one-frame tree. -/
theorem stage2_postcondition_enforced_witness :
    validate_stage2
        (J.obj [("actions", J.arr [J.obj [("type", J.str "set_frame"),
          ("frame", J.num 0), ("interactable", J.str "SELECTABLE")]])]) 1
      = .ok ⟨[Stage2Action.set_frame 0 "SELECTABLE"]⟩ ∧
    ((∃ fs, applyActions [Frame.mk none [] []]
        (Stage2Plan.mk [Stage2Action.set_frame 0 "SELECTABLE"]).actions = .ok fs) ∧
    (∀ fs, apply_stage2_plan [Frame.mk none [] []]
        ⟨[Stage2Action.set_frame 0 "SELECTABLE"]⟩ = .ok fs →
      ((framesTags fs).filter (fun t => t ≠ "NEXT")).dedup.length = 1 ∧
      (framesTags fs).count "NEXT" ≤ 1) ∧
    (∀ fs, applyActions [Frame.mk none [] []]
        (Stage2Plan.mk [Stage2Action.set_frame 0 "SELECTABLE"]).actions = .ok fs →
      ¬(((framesTags fs).filter (fun t => t ≠ "NEXT")).dedup.length = 1 ∧
        (framesTags fs).count "NEXT" ≤ 1) →
      ∃ msg, apply_stage2_plan [Frame.mk none [] []]
          ⟨[Stage2Action.set_frame 0 "SELECTABLE"]⟩ = .error (.validationError msg))) :=
  ⟨by rfl, stage2_postcondition_enforced
    (J.obj [("actions", J.arr [J.obj [("type", J.str "set_frame"),
      ("frame", J.num 0), ("interactable", J.str "SELECTABLE")]])]) 1
    [Frame.mk none [] []] ⟨[Stage2Action.set_frame 0 "SELECTABLE"]⟩ (by rfl) rfl⟩

/-! ## Claim C10: booleans pass the integer checks -/

/-- C10: the schema validators accept a JSON boolean wherever an integer
is required, because `isinstance(value, int)` holds for Python booleans:
`validate_stage2` accepts `{"type": "split_frame", "frame": true, ...}`
treating `true` as frame id 1, and `validate_stage1` accepts
`{"from": false}` as source frame 0, instead of rejecting them with a
`ValidationError`. -/
theorem validators_accept_bool_as_int :
    validate_stage2
        (J.obj [("actions", J.arr [J.obj [("type", J.str "split_frame"),
          ("frame", J.bool true), ("rows", J.num 1), ("columns", J.num 1),
          ("mark_as", J.str "SELECTABLE")]])]) 2
      = .ok ⟨[Stage2Action.split_frame 1 1 1 "SELECTABLE"]⟩ ∧
    validate_stage1
        (J.obj [("descriptions", J.arr [J.str "d0"]),
          ("relations", J.arr [J.obj [("from", J.bool false),
            ("relationship", J.str "r")]]),
          ("objective", J.str "go")]) 1
      = .ok ⟨["d0"], [⟨0, none, "r"⟩], "go"⟩ :=
  ⟨rfl, rfl⟩

/-! ## Claim C6: the configuration safety gate -/

/-- C6: `RuntimeConfig.validate` returns without raising exactly when the
override flag is set or every truthy benchmark URL is a local http/https
URL; any failure is an `UnsafeTargetError`. -/
theorem config_validate_safety_gate (c : RuntimeConfig) :
    (c.validate = .ok () ↔
      (c.allow_nonlocal_benchmark = true ∨
        ((optTruthy c.benchmark_url = true →
            _is_local_http_url (c.benchmark_url.getD "") = true) ∧
         (optTruthy c.benchmark_http_url = true →
            _is_local_http_url (c.benchmark_http_url.getD "") = true)))) ∧
    (∀ e, c.validate = .error e → ∃ msg, e = .unsafeTarget msg) := by
  obtain ⟨k, br, bu, bh, allow⟩ := c
  simp only [RuntimeConfig.validate]
  cases allow with
  | true => simp
  | false =>
    by_cases hbu : optTruthy bu = true <;>
      by_cases hlu : _is_local_http_url (bu.getD "") = true <;>
        by_cases hbh : optTruthy bh = true <;>
          by_cases hlh : _is_local_http_url (bh.getD "") = true <;>
            simp_all

/-- Witness for C6 at concrete configurations: a local benchmark URL
passes the gate, and a non-local one without the override is rejected as
an unsafe target. -/
theorem config_validate_safety_gate_witness :
    (RuntimeConfig.mk none none (some "http://127.0.0.1:3334")
        (some "http://127.0.0.1:3334") false).validate = .ok () ∧
    ∀ e, (RuntimeConfig.mk none none (some "http://example.com") none false).validate
        = .error e → ∃ msg, e = .unsafeTarget msg :=
  ⟨((config_validate_safety_gate _).1).mpr (Or.inr (by decide)),
   (config_validate_safety_gate _).2⟩

/-! ## Claim C3: the three extraction strategies -/

/-- C3 counterexample: the text
`a {"x": "``` {1} ```"}` (braces written `\x7b`/`\x7d` here) carries
syntactically valid JSON at the third extraction position — the slice
from the first `{` to the last `}` — yet `parse_json_from_response`
raises `ParseError`: the fence pattern matches the backticks inside the
string, its inner text `{1}` is not valid JSON, and the fenced-strategy
failure preempts the third strategy.  This refutes the claim that the
parser returns the value of the first strategy that yields valid JSON
whenever any of the three positions holds valid JSON. -/
theorem parser_skips_third_strategy_after_fence_failure :
    loads ((braceSlice (pyStrip "a \x7b\"x\": \"``` \x7b1\x7d ```\"\x7d")).getD "")
      = some (J.obj [("x", J.str "``` \x7b1\x7d ```")]) ∧
    parse_json_from_response (some "a \x7b\"x\": \"``` \x7b1\x7d ```\"\x7d")
      = .error (.parseError "Failed to parse fenced JSON") :=
  ⟨rfl, rfl⟩

/-- C3 (amended): `parse_json_from_response` tries direct parse, fenced
block, then brace span, returning the first successful parse — except
that once the fence pattern matches, a parse failure of its inner text
raises `ParseError` without attempting the brace span (and a matching
brace span that fails to parse likewise raises); `None`, empty and
no-JSON inputs raise `ParseError`. -/
theorem parser_strategy_order (t : Option String) :
    (t = none →
      parse_json_from_response t = .error (.parseError "Empty response (None)")) ∧
    (∀ s, t = some s → pyStrip s = "" →
      parse_json_from_response t = .error (.parseError "Empty response")) ∧
    (∀ s v, t = some s → loads (pyStrip s) = some v →
      pyStrip s ≠ "" → parse_json_from_response t = .ok v) ∧
    (∀ s c, t = some s → pyStrip s ≠ "" → loads (pyStrip s) = none →
      fenceSearch (pyStrip s).data = some c →
      parse_json_from_response t =
        (match loads (pyStrip c) with
          | some v => .ok v
          | none => .error (.parseError "Failed to parse fenced JSON"))) ∧
    (∀ s c, t = some s → pyStrip s ≠ "" → loads (pyStrip s) = none →
      fenceSearch (pyStrip s).data = none → braceSlice (pyStrip s) = some c →
      parse_json_from_response t =
        (match loads c with
          | some v => .ok v
          | none => .error (.parseError "Failed to parse extracted JSON"))) ∧
    (∀ s, t = some s → pyStrip s ≠ "" → loads (pyStrip s) = none →
      fenceSearch (pyStrip s).data = none → braceSlice (pyStrip s) = none →
      parse_json_from_response t = .error (.parseError "No JSON object found in response")) := by
  refine ⟨?_, ?_, ?_, ?_, ?_, ?_⟩
  · rintro rfl
    rfl
  · rintro s rfl hempty
    simp [parse_json_from_response, hempty]
  · rintro s v rfl hload hne
    simp [parse_json_from_response, hne, hload]
  · rintro s c rfl hne hload hfence
    simp [parse_json_from_response, hne, hload, hfence]
  · rintro s c rfl hne hload hfence hslice
    simp [parse_json_from_response, hne, hload, hfence, hslice]
  · rintro s rfl hne hload hfence hslice
    simp [parse_json_from_response, hne, hload, hfence, hslice]

/-- Witness for the amended C3 on the spec's seed inputs: a fenced
payload parses via the second strategy, and prose around a JSON object
parses via the third. -/
theorem parser_strategy_order_witness :
    parse_json_from_response (some "```json\n\x7b\"a\": 1\x7d\n```")
      = .ok (J.obj [("a", J.num 1)]) ∧
    parse_json_from_response (some "prefix\n\x7b\"a\": 1\x7d\nsuffix")
      = .ok (J.obj [("a", J.num 1)]) := by
  constructor
  · have h := (parser_strategy_order (some "```json\n\x7b\"a\": 1\x7d\n```")).2.2.2.1
    rw [h "```json\n\x7b\"a\": 1\x7d\n```" "\x7b\"a\": 1\x7d" rfl (by decide) (by rfl) (by rfl)]
    rfl
  · have h := (parser_strategy_order (some "prefix\n\x7b\"a\": 1\x7d\nsuffix")).2.2.2.2.1
    rw [h "prefix\n\x7b\"a\": 1\x7d\nsuffix" "\x7b\"a\": 1\x7d" rfl (by decide) (by rfl) (by rfl) (by rfl)]
    rfl

/-! ## Stage-3 restricted DSL (`halligan/runtime/executor.py`, lines 89-337)

Runtime values are the Python values flowing through the interpreter:
JSON-shaped data plus the opaque objects produced by tools (frames,
points, choices), which carry only their dynamic class name and an
identity.  Tool bodies, object attributes and method behaviours are
external; they enter as the `Oracles` record, in which `none` models the
underlying Python call raising (or the attribute being absent). -/

inductive Value where
  | vnone
  | vbool (b : Bool)
  | vint (n : Int)
  | vflt (lit : String)
  | vstr (s : String)
  | vlist (xs : List Value)
  | vdict (entries : List (String × Value))
  | vobj (cls : String) (oid : Nat)

/-- `obj.__class__.__name__`. -/
def Value.className : Value → String
  | .vnone => "NoneType"
  | .vbool _ => "bool"
  | .vint _ => "int"
  | .vflt _ => "float"
  | .vstr _ => "str"
  | .vlist _ => "list"
  | .vdict _ => "dict"
  | .vobj cls _ => cls

/-- `isinstance(v, int)`, which Python booleans satisfy (`True` is `1`,
`False` is `0`). -/
def Value.asPyInt : Value → Option Int
  | .vint n => some n
  | .vbool b => some (if b then 1 else 0)
  | _ => none

/-- Python truthiness (`if cond:`).  Floats are truthy except a literal
zero lexeme (no claim involves float conditions); opaque objects are
truthy (`__bool__` overrides are not modelled). -/
def Value.pyTruthy : Value → Bool
  | .vnone => false
  | .vbool b => b
  | .vint n => n ≠ 0
  | .vflt lit => lit ≠ "0.0" ∧ lit ≠ "-0.0"
  | .vstr s => s ≠ ""
  | .vlist xs => !xs.isEmpty
  | .vdict entries => !entries.isEmpty
  | .vobj _ _ => true

/-- `lst[idx]` for lists and strings, with Python's negative indexing;
`none` models `IndexError`/`TypeError`. -/
def pyIndex (v : Value) (i : Int) : Option Value :=
  match v with
  | .vlist xs =>
    let j := if i < 0 then i + xs.length else i
    if h : 0 ≤ j ∧ j.toNat < xs.length then some (xs.get ⟨j.toNat, h.2⟩) else none
  | .vstr s =>
    let j := if i < 0 then i + s.length else i
    if h : 0 ≤ j ∧ j.toNat < s.data.length then
      some (.vstr (String.mk [s.data.get ⟨j.toNat, h.2⟩])) else none
  | _ => none

/-- `len(v)`; `none` models `TypeError`. -/
def pyLen : Value → Option Nat
  | .vlist xs => some xs.length
  | .vstr s => some s.length
  | .vdict entries => some entries.length
  | _ => none

/-- `sum(v)` over a list of ints/bools; `none` models `TypeError`
(floats are left out of the model; no claim sums floats). -/
def pySum : List Value → Option Int
  | [] => some 0
  | v :: rest => do
    let n ← v.asPyInt
    let m ← pySum rest
    some (n + m)

/-- External behaviour: `getattrO v a = none` models `AttributeError`,
`invokeO v m args = none` models the method raising, and
`toolO name args = none` models the tool raising.  `hasattr` is
`(getattrO v a).isSome`. -/
structure Oracles where
  getattrO : Value → String → Option Value
  invokeO : Value → String → List (String × Value) → Option Value
  toolO : String → List (String × Value) → Option Value

/-- Oracles under which every external call raises. -/
def noOracles : Oracles :=
  ⟨fun _ _ => none, fun _ _ _ => none, fun _ _ => none⟩

/-- `_ALLOWED_METHODS`. -/
def _ALLOWED_METHODS : List (String × List String) :=
  [("Frame", ["show_keypoints", "get_keypoint", "get_interactable"]),
   ("Point", ["show_neighbours", "get_neighbour"]),
   ("SelectChoice", ["select"]),
   ("SlideChoice", ["refine", "release"]),
   ("SwapChoice", ["swap"]),
   ("DragChoice", ["drop"]),
   ("Choice", ["release"])]

/-- `_ALLOWED_METHODS.get(cls, set())`. -/
def allowedMethods (cls : String) : List String :=
  (_ALLOWED_METHODS.lookup cls).getD []

/-- `_ensure_allowed_method`: method lookup is by dynamic class name
only. -/
def _ensure_allowed_method (v : Value) (m : String) : Except Exc Unit :=
  if (allowedMethods v.className).contains m then .ok ()
  else .error (.toolError ("Method not allowed: " ++ v.className ++ "." ++ m))

/-- The `ToolRegistry` reduced to its observable content: the set of
registered names.  `registry.get(name)` is truthy exactly on members;
the registered callables' behaviour is the `toolO` oracle. -/
def registryHas (reg : List String) (name : String) : Bool := reg.contains name

/-- The safety-relevant events of a Stage-3 run: a registry tool being
invoked, an allowlisted method being invoked, and an attribute name
being resolved by the `attr`/`map_attr` expression forms. -/
inductive Ev where
  | toolInvoked (name : String)
  | methodInvoked (cls : String) (method : String)
  | attrResolved (name : String)
deriving DecidableEq, Repr

/-- `some (J.str s)` test without needing decidable equality on `J`
(mirrors `expr.get(k) == "literal"`). -/
def jIsStr (o : Option J) (s : String) : Bool :=
  match o with
  | some (J.str t) => t = s
  | _ => false

/-- `isinstance(x, int)` on a raw JSON field (booleans pass). -/
def jAsInt : Option J → Option Int
  | some (J.num n) => some n
  | some (J.bool b) => some (if b then 1 else 0)
  | _ => none

theorem sizeOf_jGet {kvs : List (String × J)} {k : String} {v : J}
    (h : jGet kvs k = some v) : sizeOf v < 1 + sizeOf kvs := by
  induction kvs with
  | nil => simp [jGet] at h
  | cons hd tl ih =>
    simp only [jGet] at h
    split at h
    · cases h
      cases hd
      simp
      omega
    · have := ih h
      cases hd
      simp at this ⊢
      omega

theorem sizeOf_list_pos (l : List (String × J)) : 1 ≤ sizeOf l := by
  cases l with
  | nil => simp
  | cons hd tl => simp; omega

theorem sizeOf_jGetD_null {kvs : List (String × J)} {k : String} :
    sizeOf (jGetD kvs k J.null) < 1 + sizeOf kvs := by
  rw [jGetD]
  cases h : jGet kvs k with
  | none =>
    have := sizeOf_list_pos kvs
    simp
    omega
  | some v =>
    have := sizeOf_jGet h
    simpa using this

/-- The `[getattr(item, attr) for item in items]` loop of `map_attr`,
emitting one resolution event per item. -/
def mapAttrLoop (O : Oracles) (attr : String) : List Value → List Ev × Except Exc (List Value)
  | [] => ([], .ok [])
  | item :: rest =>
    match O.getattrO item attr with
    | none => ([.attrResolved attr], .error (.pyErr ("AttributeError: " ++ attr)))
    | some v =>
      let (t, r) := mapAttrLoop O attr rest
      (.attrResolved attr :: t,
        match r with
        | .ok vs => .ok (v :: vs)
        | .error e => .error e)

/-- The element loop of `filter_mask`. -/
def filterMaskLoop : List Value → List Value → Except Exc (List Value)
  | [], [] => .ok []
  | item :: items, flag :: flags =>
    match flag with
    | .vbool b => do
      let rest ← filterMaskLoop items flags
      .ok (if b then item :: rest else rest)
    | _ => .error (.toolError "filter_mask mask must contain booleans")
  | _, _ => .error (.toolError "filter_mask items and mask must be same length")

mutual

/-- `_eval_expr`: evaluate a Stage-3 expression.  Pure with respect to
`env`; returns the emitted events and the result. -/
def _eval_expr (O : Oracles) (frames : List Value) (env : List (String × Value))
    (expr : J) : List Ev × Except Exc Value :=
  match expr with
  | J.null => ([], .ok .vnone)
  | J.bool b => ([], .ok (.vbool b))
  | J.num n => ([], .ok (.vint n))
  | J.flt lit => ([], .ok (.vflt lit))
  | J.str s => ([], .ok (.vstr s))
  | J.arr xs =>
    let (t, r) := _eval_exprList O frames env xs
    (t, match r with
        | .ok vs => .ok (.vlist vs)
        | .error e => .error e)
  | J.obj kvs =>
    match jGet kvs "var" with
    | some nameJ =>
      match nameJ with
      | J.str name =>
        match env.lookup name with
        | some v => ([], .ok v)
        | none => ([], .error (.toolError ("Undefined variable: " ++ name)))
      | _ => ([], .error (.toolError "Expression var name must be string"))
    | none =>
      if jIsStr (jGet kvs "ref") "frame" then
        match jAsInt (jGet kvs "id") with
        | some fid =>
          if h : 0 ≤ fid ∧ fid.toNat < frames.length then
            ([], .ok (frames.get ⟨fid.toNat, h.2⟩))
          else ([], .error (.toolError "Invalid frame id"))
        | none => ([], .error (.toolError "Invalid frame id"))
      else if jIsStr (jGet kvs "ref") "interactable" then
        match jAsInt (jGet kvs "frame"), jAsInt (jGet kvs "id") with
        | some fid, iid? =>
          if h : 0 ≤ fid ∧ fid.toNat < frames.length then
            match iid? with
            | some iid =>
              if 0 ≤ iid then
                match O.invokeO (frames.get ⟨fid.toNat, h.2⟩) "get_interactable"
                    [("id", .vint iid)] with
                | some v => ([], .ok v)
                | none => ([], .error (.pyErr "get_interactable raised"))
              else ([], .error (.toolError "Invalid interactable id"))
            | none => ([], .error (.toolError "Invalid interactable id"))
          else ([], .error (.toolError "Invalid frame id"))
        | none, _ => ([], .error (.toolError "Invalid frame id"))
      else if jIsStr (jGet kvs "ref") "keypoint" then
        match jAsInt (jGet kvs "frame"), jAsInt (jGet kvs "id") with
        | some fid, kid? =>
          if h : 0 ≤ fid ∧ fid.toNat < frames.length then
            match kid? with
            | some kid =>
              if 0 ≤ kid then
                match O.invokeO (frames.get ⟨fid.toNat, h.2⟩) "get_keypoint"
                    [("id", .vint kid)] with
                | some v => ([], .ok v)
                | none => ([], .error (.pyErr "get_keypoint raised"))
              else ([], .error (.toolError "Invalid keypoint id"))
            | none => ([], .error (.toolError "Invalid keypoint id"))
          else ([], .error (.toolError "Invalid frame id"))
        | none, _ => ([], .error (.toolError "Invalid frame id"))
      else if jIsStr (jGet kvs "ref") "neighbour" then
        let (t, r) := _eval_expr O frames env (jGetD kvs "point" J.null)
        match r with
        | .error e => (t, .error e)
        | .ok point =>
          if (O.getattrO point "get_neighbour").isSome then
            match jAsInt (jGet kvs "id") with
            | some nid =>
              if 0 ≤ nid then
                match O.invokeO point "get_neighbour" [("id", .vint nid)] with
                | some v => (t, .ok v)
                | none => (t, .error (.pyErr "get_neighbour raised"))
              else (t, .error (.toolError "Invalid neighbour id"))
            | none => (t, .error (.toolError "Invalid neighbour id"))
          else
            (t, .error (.toolError
              "neighbour.point must evaluate to a Point-like object with get_neighbour"))
      else if jIsStr (jGet kvs "ref") "attr" then
        let (t, r) := _eval_expr O frames env (jGetD kvs "obj" J.null)
        match r with
        | .error e => (t, .error e)
        | .ok obj =>
          match jGet kvs "name" with
          | some (J.str name) =>
            if name.startsWith "__" then
              (t, .error (.toolError "Dunder attribute access is not allowed"))
            else
              match O.getattrO obj name with
              | some v => (t ++ [.attrResolved name], .ok v)
              | none => (t ++ [.attrResolved name],
                  .error (.pyErr ("AttributeError: " ++ name)))
          | _ => (t, .error (.toolError "attr.name must be string"))
      else if jIsStr (jGet kvs "ref") "index" then
        let (t1, r1) := _eval_expr O frames env (jGetD kvs "list" J.null)
        match r1 with
        | .error e => (t1, .error e)
        | .ok lst =>
          let (t2, r2) := _eval_expr O frames env (jGetD kvs "index" J.null)
          match r2 with
          | .error e => (t1 ++ t2, .error e)
          | .ok idxv =>
            match idxv.asPyInt with
            | some i =>
              match pyIndex lst i with
              | some v => (t1 ++ t2, .ok v)
              | none => (t1 ++ t2, .error (.pyErr "IndexError"))
            | none => (t1 ++ t2, .error (.toolError "index.index must evaluate to int"))
      else if jIsStr (jGet kvs "op") "map_attr" then
        let (t, r) := _eval_expr O frames env (jGetD kvs "list" J.null)
        match r with
        | .error e => (t, .error e)
        | .ok items =>
          match jGet kvs "attr" with
          | some (J.str attr) =>
            if attr.startsWith "__" then
              (t, .error (.toolError "map_attr.attr must be a non-dunder string"))
            else
              match items with
              | .vlist xs =>
                let (t2, r2) := mapAttrLoop O attr xs
                (t ++ t2, match r2 with
                  | .ok vs => .ok (.vlist vs)
                  | .error e => .error e)
              | _ => (t, .error (.pyErr "TypeError: map_attr target not iterable"))
          | _ => (t, .error (.toolError "map_attr.attr must be a non-dunder string"))
      else if jIsStr (jGet kvs "op") "filter_mask" then
        let (t1, r1) := _eval_expr O frames env (jGetD kvs "items" J.null)
        match r1 with
        | .error e => (t1, .error e)
        | .ok items =>
          let (t2, r2) := _eval_expr O frames env (jGetD kvs "mask" J.null)
          match r2 with
          | .error e => (t1 ++ t2, .error e)
          | .ok mask =>
            match items, mask with
            | .vlist xs, .vlist ms =>
              if xs.length ≠ ms.length then
                (t1 ++ t2, .error (.toolError "filter_mask items and mask must be same length"))
              else
                (t1 ++ t2, match filterMaskLoop xs ms with
                  | .ok out => .ok (.vlist out)
                  | .error e => .error e)
            | _, _ => (t1 ++ t2, .error (.toolError "filter_mask requires list items and list mask"))
      else if jIsStr (jGet kvs "op") "len" then
        let (t, r) := _eval_expr O frames env (jGetD kvs "value" J.null)
        match r with
        | .error e => (t, .error e)
        | .ok v =>
          match pyLen v with
          | some n => (t, .ok (.vint n))
          | none => (t, .error (.pyErr "TypeError: object has no len"))
      else if jIsStr (jGet kvs "op") "sum" then
        let (t, r) := _eval_expr O frames env (jGetD kvs "value" J.null)
        match r with
        | .error e => (t, .error e)
        | .ok v =>
          match v with
          | .vlist xs =>
            match pySum xs with
            | some n => (t, .ok (.vint n))
            | none => (t, .error (.pyErr "TypeError: unsupported sum"))
          | _ => (t, .error (.pyErr "TypeError: sum target not iterable"))
      else ([], .error (.toolError "Unsupported expression"))
termination_by (sizeOf expr, 0)
decreasing_by
  all_goals simp_wf
  all_goals apply Prod.Lex.left
  all_goals first
    | exact sizeOf_jGetD_null
    | (simp; try omega)

/-- Element-wise evaluation of a JSON array expression. -/
def _eval_exprList (O : Oracles) (frames : List Value) (env : List (String × Value))
    (xs : List J) : List Ev × Except Exc (List Value) :=
  match xs with
  | [] => ([], .ok [])
  | x :: rest =>
    let (t1, r1) := _eval_expr O frames env x
    match r1 with
    | .error e => (t1, .error e)
    | .ok v =>
      let (t2, r2) := _eval_exprList O frames env rest
      (t1 ++ t2, match r2 with
        | .ok vs => .ok (v :: vs)
        | .error e => .error e)
termination_by (sizeOf xs, 0)

end

theorem sizeOf_jGetD_arr {kvs : List (String × J)} {k : String} {ts : List J}
    (h : jGetD kvs k (J.arr []) = J.arr ts) : sizeOf ts < 1 + sizeOf kvs := by
  rw [jGetD] at h
  cases hg : jGet kvs k with
  | none =>
    rw [hg] at h
    simp at h
    subst h
    have := sizeOf_list_pos kvs
    simp
    omega
  | some v =>
    rw [hg] at h
    simp at h
    have h2 := sizeOf_jGet hg
    subst h
    simp at h2
    omega

/-- Evaluate a `call`/`call_method` argument object in insertion order
(`{k: _eval_expr(v) for k, v in args_obj.items()}`). -/
def evalArgs (O : Oracles) (frames : List Value) (env : List (String × Value)) :
    List (String × J) → List Ev × Except Exc (List (String × Value))
  | [] => ([], .ok [])
  | (k, vJ) :: rest =>
    let (t1, r1) := _eval_expr O frames env vJ
    match r1 with
    | .error e => (t1, .error e)
    | .ok v =>
      let (t2, r2) := evalArgs O frames env rest
      (t1 ++ t2, match r2 with
        | .ok args => .ok ((k, v) :: args)
        | .error e => .error e)

/-- Result of running statements: normal completion, a `_Break` escaping
(carrying the environment as mutated so far, since the Python `env` dict
is shared), or an exception. -/
inductive StepRes where
  | ok (env : List (String × Value))
  | brk (env : List (String × Value))
  | exc (e : Exc)

/-- Whether the run ended in an exception from the Halligan hierarchy
(`_Break` is a plain `Exception` subclass, outside the hierarchy). -/
def StepRes.isHalliganError : StepRes → Bool
  | .exc e => e.isHalligan
  | _ => false

/-- The `save_as` epilogue shared by `call` and `call_method`. -/
def saveAs (kvs : List (String × J)) (result : Value)
    (env : List (String × Value)) (errMsg : String) : StepRes :=
  match jGet kvs "save_as" with
  | none => .ok env
  | some J.null => .ok env
  | some (J.str s) =>
    if s = "" then .exc (.toolError errMsg) else .ok ((s, result) :: env)
  | some _ => .exc (.toolError errMsg)

mutual

/-- `run_steps`: execute statements in order under the shared mutable
environment. -/
def runSteps (O : Oracles) (reg : List String) (frames : List Value)
    (steps : List J) (env : List (String × Value)) : List Ev × StepRes :=
  match steps with
  | [] => ([], .ok env)
  | s :: rest =>
    let (t1, r1) := runStep O reg frames s env
    match r1 with
    | .ok env1 =>
      let (t2, r2) := runSteps O reg frames rest env1
      (t1 ++ t2, r2)
    | other => (t1, other)
termination_by (sizeOf steps, 0)

/-- One statement of the Stage-3 DSL. -/
def runStep (O : Oracles) (reg : List String) (frames : List Value)
    (step : J) (env : List (String × Value)) : List Ev × StepRes :=
  match step with
  | J.obj kvs =>
    if jIsStr (jGet kvs "op") "call" then
      match jGet kvs "tool" with
      | some (J.str toolName) =>
        if ¬registryHas reg toolName then
          ([], .exc (.toolError ("Tool not allowed: " ++ toolName)))
        else
          match jGetD kvs "args" (J.obj []) with
          | J.obj argsObj =>
            let (t1, r1) := evalArgs O frames env argsObj
            match r1 with
            | .error e => (t1, .exc e)
            | .ok args =>
              match O.toolO toolName args with
              | some result =>
                (t1 ++ [.toolInvoked toolName], saveAs kvs result env
                  "call.save_as must be non-empty string")
              | none =>
                (t1 ++ [.toolInvoked toolName],
                  .exc (.toolError ("Tool call failed: " ++ toolName)))
          | _ => ([], .exc (.toolError "call.args must be object"))
      | _ => ([], .exc (.toolError "call.tool must be string"))
    else if jIsStr (jGet kvs "op") "call_method" then
      let (t0, r0) := _eval_expr O frames env (jGetD kvs "target" J.null)
      match r0 with
      | .error e => (t0, .exc e)
      | .ok target =>
        match jGet kvs "method" with
        | some (J.str method) =>
          if method = "" then (t0, .exc (.toolError "call_method.method must be string"))
          else
            match _ensure_allowed_method target method with
            | .error e => (t0, .exc e)
            | .ok () =>
              match O.getattrO target method with
              | none => (t0, .exc (.pyErr ("AttributeError: " ++ method)))
              | some _fn =>
                match jGetD kvs "args" (J.obj []) with
                | J.obj argsObj =>
                  let (t1, r1) := evalArgs O frames env argsObj
                  match r1 with
                  | .error e => (t0 ++ t1, .exc e)
                  | .ok args =>
                    match O.invokeO target method args with
                    | some result =>
                      (t0 ++ t1 ++ [.methodInvoked target.className method],
                        saveAs kvs result env
                          "call_method.save_as must be non-empty string")
                    | none =>
                      (t0 ++ t1 ++ [.methodInvoked target.className method],
                        .exc (.toolError ("Method call failed: " ++
                          target.className ++ "." ++ method)))
                | _ => (t0, .exc (.toolError "call_method.args must be object"))
        | _ => (t0, .exc (.toolError "call_method.method must be string"))
    else if jIsStr (jGet kvs "op") "assign" then
      match jGet kvs "var" with
      | some (J.str name) =>
        if name = "" then ([], .exc (.toolError "assign.var must be non-empty string"))
        else
          let (t, r) := _eval_expr O frames env (jGetD kvs "value" J.null)
          match r with
          | .error e => (t, .exc e)
          | .ok v => (t, .ok ((name, v) :: env))
      | _ => ([], .exc (.toolError "assign.var must be non-empty string"))
    else if jIsStr (jGet kvs "op") "foreach" then
      match jGet kvs "var" with
      | some (J.str var) =>
        if var = "" then ([], .exc (.toolError "foreach.var must be non-empty string"))
        else
          let (t, r) := _eval_expr O frames env (jGetD kvs "in" J.null)
          match r with
          | .error e => (t, .exc e)
          | .ok iterable =>
            match iterable with
            | .vlist items =>
              match hbody : jGetD kvs "do" (J.arr []) with
              | J.arr body =>
                let (t2, r2) := runForeach O reg frames body var items env
                (t ++ t2, match r2 with
                  | .brk env2 => .ok env2
                  | other => other)
              | _ => (t, .exc (.toolError "foreach.do must be a list of steps"))
            | _ => (t, .exc (.toolError "foreach.in must evaluate to a list"))
      | _ => ([], .exc (.toolError "foreach.var must be non-empty string"))
    else if jIsStr (jGet kvs "op") "if" then
      let (t, r) := _eval_expr O frames env (jGetD kvs "cond" J.null)
      match r with
      | .error e => (t, .exc e)
      | .ok cond =>
        match hthen : jGetD kvs "then" (J.arr []) with
        | J.arr thenSteps =>
          match helse : jGetD kvs "else" (J.arr []) with
          | J.arr elseSteps =>
            if cond.pyTruthy then
              let (t2, r2) := runSteps O reg frames thenSteps env
              (t ++ t2, r2)
            else
              let (t2, r2) := runSteps O reg frames elseSteps env
              (t ++ t2, r2)
          | _ => (t, .exc (.toolError "if.then/if.else must be list of steps"))
        | _ => (t, .exc (.toolError "if.then/if.else must be list of steps"))
    else if jIsStr (jGet kvs "op") "break" then
      ([], .brk env)
    else ([], .exc (.toolError "Unknown step op"))
  | _ => ([], .exc (.pyErr "AttributeError: step has no attribute get"))
termination_by (sizeOf step, 0)
decreasing_by
  all_goals simp_wf
  all_goals first
    | (apply Prod.Lex.right; omega)
    | (apply Prod.Lex.left
       first
        | omega
        | (simp; omega)
        | (have h9 := sizeOf_jGetD_arr hbody; simp; omega)
        | (have h9 := sizeOf_jGetD_arr hthen; simp; omega)
        | (have h9 := sizeOf_jGetD_arr helse; simp; omega))

/-- The `for item in iterable: env[var] = item; run_steps(body)` loop of
`foreach`.  A `_Break` from the body propagates to the enclosing
`try/except` in `runStep`, which turns it into normal completion. -/
def runForeach (O : Oracles) (reg : List String) (frames : List Value)
    (body : List J) (var : String) (items : List Value)
    (env : List (String × Value)) : List Ev × StepRes :=
  match items with
  | [] => ([], .ok env)
  | item :: rest =>
    let (t1, r1) := runSteps O reg frames body ((var, item) :: env)
    match r1 with
    | .ok env1 =>
      let (t2, r2) := runForeach O reg frames body var rest env1
      (t1 ++ t2, r2)
    | other => (t1, other)
termination_by (sizeOf body, items.length + 1)

end

/-- `execute_stage3_program`: run the program's steps under a fresh
environment.  The Python function returns `None`; the final result and
event trace are returned here so properties can be stated about them. -/
def execute_stage3_program (frames : List Value) (program : Stage3Program)
    (reg : List String) (O : Oracles) : List Ev × StepRes :=
  runSteps O reg frames program.steps []

/-! ## Claim C9: `_Break` escapes the executor -/

/-- C9: a `break` step reached outside any `foreach` aborts the program
with the internal `_Break` exception propagating to the caller of
`execute_stage3_program`: the remaining steps are skipped, the outcome
is the `_Break` outcome (not a `ToolError` and not any error of the
Halligan hierarchy), as shown both for an arbitrary continuation and for
the concrete one-step program. -/
theorem break_escapes_executor :
    (∀ (O : Oracles) (reg : List String) (frames : List Value)
        (rest : List J) (env : List (String × Value)),
      runSteps O reg frames (J.obj [("op", J.str "break")] :: rest) env
        = ([], .brk env)) ∧
    execute_stage3_program [] ⟨[J.obj [("op", J.str "break")]]⟩ [] noOracles
      = ([], .brk []) ∧
    StepRes.isHalliganError (.brk []) = false ∧
    (∀ msg env, StepRes.brk env ≠ .exc (.toolError msg)) := by
  refine ⟨?_, ?_, rfl, ?_⟩
  · intro O reg frames rest env
    simp [runSteps, runStep, jGet, jIsStr]
  · simp [execute_stage3_program, runSteps, runStep, jGet, jIsStr]
  · intro msg env h
    cases h

/-! ## Claim C8: `foreach` semantics -/

/-- C8: for a `foreach` step, a non-list `in` value raises a `ToolError`
before any iteration; a list runs the body once per element with the
loop variable bound in the single shared environment (the loop threads
the body's resulting environment into the next iteration, a `break`
outcome of the body ends exactly this loop and is converted to normal
completion, and an exception aborts); and a `foreach` step never
propagates the `_Break` outcome itself, which is what leaves enclosing
loops running. -/
theorem foreach_semantics (O : Oracles) (reg : List String) (frames : List Value)
    (kvs : List (String × J)) (env : List (String × Value)) (v : String) :
    (∀ t it, jGet kvs "op" = some (J.str "foreach") →
      jGet kvs "var" = some (J.str v) → v ≠ "" →
      _eval_expr O frames env (jGetD kvs "in" J.null) = (t, .ok it) →
      (∀ xs, it ≠ .vlist xs) →
      runStep O reg frames (J.obj kvs) env
        = (t, .exc (.toolError "foreach.in must evaluate to a list"))) ∧
    (∀ t items body, jGet kvs "op" = some (J.str "foreach") →
      jGet kvs "var" = some (J.str v) → v ≠ "" →
      _eval_expr O frames env (jGetD kvs "in" J.null) = (t, .ok (.vlist items)) →
      jGetD kvs "do" (J.arr []) = J.arr body →
      runStep O reg frames (J.obj kvs) env
        = (t ++ (runForeach O reg frames body v items env).1,
           match (runForeach O reg frames body v items env).2 with
           | .brk env2 => .ok env2
           | other => other)) ∧
    (∀ body, runForeach O reg frames body v [] env = ([], .ok env)) ∧
    (∀ body item rest, runForeach O reg frames body v (item :: rest) env
      = (match runSteps O reg frames body ((v, item) :: env) with
         | (t1, .ok env1) =>
           (t1 ++ (runForeach O reg frames body v rest env1).1,
            (runForeach O reg frames body v rest env1).2)
         | (t1, other) => (t1, other))) ∧
    (∀ envB, jGet kvs "op" = some (J.str "foreach") →
      (runStep O reg frames (J.obj kvs) env).2 ≠ .brk envB) := by
  refine ⟨?_, ?_, ?_, ?_, ?_⟩
  · intro t it hop hvar hv hin hnl
    rw [runStep]
    simp [hop, hvar, jIsStr, hv, hin]
  · intro t items body hop hvar hv hin hbody
    rw [runStep]
    simp [hop, hvar, jIsStr, hv, hin]
    split <;> simp_all
  · intro body
    simp [runForeach]
  · intro body item rest
    rw [runForeach]
    rcases h : runSteps O reg frames body ((v, item) :: env) with ⟨t1, r1⟩
    cases r1 <;> simp
  · intro envB hop hne
    rw [runStep] at hne
    simp [hop, jIsStr] at hne
    rcases hv2 : jGet kvs "var" with _ | nv
    · simp [hv2] at hne
    · rcases nv with _ | _ | _ | _ | nm | _ | _ <;> simp [hv2] at hne
      by_cases hnm : nm = ""
      · simp [hnm] at hne
      · simp [hnm] at hne
        rcases he : _eval_expr O frames env (jGetD kvs "in" J.null) with ⟨t, r⟩
        simp [he] at hne
        rcases r with e | iv
        · simp at hne
        · rcases iv with _ | _ | _ | _ | _ | xs | _ | _ <;> simp at hne
          split at hne
          · rename_i body2 heq
            cases hr2 : (runForeach O reg frames body2 nm xs env).2 <;>
              simp [hr2] at hne
          · simp at hne

/-- Witness for C8 at a concrete step: `foreach` over the non-list `5`
fails with the list `ToolError`, and a concrete two-element loop binds
the variable per element. -/
theorem foreach_semantics_witness :
    runStep noOracles [] []
      (J.obj [("op", J.str "foreach"), ("var", J.str "x"), ("in", J.num 5),
        ("do", J.arr [])]) []
      = ([], .exc (.toolError "foreach.in must evaluate to a list")) :=
  (foreach_semantics noOracles [] []
      [("op", J.str "foreach"), ("var", J.str "x"), ("in", J.num 5),
        ("do", J.arr [])] [] "x").1
    [] (.vint 5) (by simp [jGet]) (by simp [jGet]) (by simp)
    (by simp [jGetD, jGet, _eval_expr]) (by intro xs h; cases h)

/-! ## Claim C2: allowlist enforcement machinery -/

/-- Validity of an event with respect to the registry and the method
allowlist: invoked tools are registered, invoked methods are allowlisted
for the target's class, resolved attribute names are not dunder. -/
def EvValid (reg : List String) : Ev → Prop
  | .toolInvoked n => registryHas reg n = true
  | .methodInvoked c m => (allowedMethods c).contains m = true
  | .attrResolved n => n.startsWith "__" = false

/-- Events an expression evaluation can emit: only non-dunder attribute
resolutions. -/
def EvalEv (ev : Ev) : Prop :=
  ∃ n, ev = .attrResolved n ∧ n.startsWith "__" = false

theorem evalEv_valid {reg : List String} {ev : Ev} (h : EvalEv ev) : EvValid reg ev := by
  obtain ⟨n, rfl, hn⟩ := h
  exact hn

theorem mapAttrLoop_events (O : Oracles) (attr : String)
    (hattr : attr.startsWith "__" = false) :
    ∀ items ev, ev ∈ (mapAttrLoop O attr items).1 → EvalEv ev := by
  intro items
  induction items with
  | nil => simp [mapAttrLoop]
  | cons item rest ih =>
    intro ev hev
    rw [mapAttrLoop] at hev
    rcases hga : O.getattrO item attr with _ | v <;> simp [hga] at hev
    · exact ⟨attr, hev, hattr⟩
    · rcases hev with rfl | hev
      · exact ⟨attr, rfl, hattr⟩
      · exact ih ev hev

set_option maxHeartbeats 1000000 in
theorem eval_events (O : Oracles) (frames : List Value) (env : List (String × Value)) :
    ∀ e ev, ev ∈ (_eval_expr O frames env e).1 → EvalEv ev := by
  apply _eval_expr.induct O frames env
    (fun e => ∀ ev, ev ∈ (_eval_expr O frames env e).1 → EvalEv ev)
    (fun xs => ∀ ev, ev ∈ (_eval_exprList O frames env xs).1 → EvalEv ev)
  all_goals intros
  all_goals try (
    rename_i ev hev
    rw [_eval_expr] at hev
    try simp_all [EvalEv]
    try ((repeat' (split at hev)) <;> simp_all [EvalEv])
    done)
  all_goals try (
    rename_i ev hev
    rw [_eval_exprList] at hev
    try simp_all [EvalEv]
    try ((repeat' (split at hev)) <;> simp_all [EvalEv])
    done)
  all_goals try (
    rename_i ev hev
    rw [_eval_expr] at hev
    simp_all [EvalEv]
    tauto)
  all_goals try (
    rename_i ev hev
    rw [_eval_exprList] at hev
    simp_all [EvalEv]
    tauto)
  all_goals (
    rename_i hdund xs t r hml hx ih ev hev
    rw [_eval_expr] at hev
    simp [*] at hev
    have hloop := mapAttrLoop_events O _ (by simpa using hdund) xs
    rw [hml] at hloop
    rw [hx] at ih
    rcases hev with h1 | h2
    · exact ih _ h1
    · exact hloop _ h2)

theorem evalArgs_events (O : Oracles) (frames : List Value) (env : List (String × Value)) :
    ∀ args ev, ev ∈ (evalArgs O frames env args).1 → EvalEv ev := by
  intro args
  induction args with
  | nil => simp [evalArgs]
  | cons kv rest ih =>
    intro ev hev
    rcases kv with ⟨k, vJ⟩
    rw [evalArgs] at hev
    rcases he : _eval_expr O frames env vJ with ⟨t1, r1⟩
    rcases r1 with e | v <;> simp [he] at hev
    · exact eval_events O frames env vJ ev (by rw [he]; exact hev)
    · rcases hev with h1 | h2
      · exact eval_events O frames env vJ ev (by rw [he]; exact h1)
      · exact ih ev h2

theorem ensure_ok {v : Value} {m : String}
    (h : _ensure_allowed_method v m = .ok ()) :
    m ∈ allowedMethods v.className := by
  by_contra hc
  simp only [_ensure_allowed_method] at h
  rw [if_neg] at h
  · cases h
  · simpa using hc

set_option maxHeartbeats 2000000 in
theorem run_events (O : Oracles) (reg : List String) (frames : List Value) :
    ∀ steps env ev, ev ∈ (runSteps O reg frames steps env).1 → EvValid reg ev := by
  have HA : ∀ env args t r, evalArgs O frames env args = (t, r) →
      ∀ ev, ev ∈ t → EvValid reg ev :=
    fun env args t r heq ev h =>
      evalEv_valid (evalArgs_events O frames env args ev (by rw [heq]; exact h))
  have HE : ∀ env e t r, _eval_expr O frames env e = (t, r) →
      ∀ ev, ev ∈ t → EvValid reg ev :=
    fun env e t r heq ev h =>
      evalEv_valid (eval_events O frames env e ev (by rw [heq]; exact h))
  apply runSteps.induct O reg frames
    (fun steps env => ∀ ev, ev ∈ (runSteps O reg frames steps env).1 → EvValid reg ev)
    (fun step env => ∀ ev, ev ∈ (runStep O reg frames step env).1 → EvValid reg ev)
    (fun body var items env => ∀ ev, ev ∈ (runForeach O reg frames body var items env).1 → EvValid reg ev)
  all_goals intros
  all_goals try (
    rename_i ev hev
    rw [runSteps] at hev
    simp_all [EvValid]
    try tauto
    done)
  all_goals try (
    rename_i ev hev
    rw [runForeach] at hev
    simp_all [EvValid]
    try tauto
    done)
  all_goals try (
    rename_i ev hev
    rw [runStep] at hev
    simp_all [EvValid]
    try tauto
    done)
  all_goals (
    rename_i ev hev
    rw [runStep] at hev
    try (have hens := ensure_ok (by assumption))
    try simp_all
    first
      | exact HA _ _ _ _ (by assumption) _ hev
      | exact HE _ _ _ _ (by assumption) _ hev
      | (simp_all [EvValid]; done)
      | (rcases hev with hev | hev
         · first
            | exact HA _ _ _ _ (by assumption) _ hev
            | exact HE _ _ _ _ (by assumption) _ hev
            | (simp_all [EvValid]; done)
         · first
            | exact HA _ _ _ _ (by assumption) _ hev
            | exact HE _ _ _ _ (by assumption) _ hev
            | (simp_all [EvValid]; done)
            | (rcases hev with hev | hev
               · first
                  | exact HA _ _ _ _ (by assumption) _ hev
                  | exact HE _ _ _ _ (by assumption) _ hev
                  | (simp_all [EvValid]; done)
               · first
                  | exact HA _ _ _ _ (by assumption) _ hev
                  | exact HE _ _ _ _ (by assumption) _ hev
                  | (simp_all [EvValid]; done)))
      | ((repeat' (split at hev)) <;>
          (first
            | (simp_all; done)
            | skip) <;>
          (try (simp only [List.mem_append] at hev)) <;>
          (first
            | exact HE _ _ _ _ (by assumption) _ hev
            | (simp_all [EvValid]; done)
            | (rcases hev with hev | hev
               · first
                  | exact HE _ _ _ _ (by assumption) _ hev
                  | (simp_all [EvValid]; done)
               · first
                  | exact HE _ _ _ _ (by assumption) _ hev
                  | (simp_all [EvValid]; done)))))

/-- C2: during execution of any Stage-3 program, every event in the run's
trace is valid — every invoked tool name is registered and every invoked
method is allowlisted for the target's dynamic class, and every attribute
name resolved by the `attr`/`map_attr` forms is non-dunder; moreover a
`call` step with an unregistered tool name fails with a `ToolError`
before any invocation (its trace is empty), a `call_method` step whose
(class, method) pair is not in the table fails with a `ToolError` before
invocation (its trace carries only the target evaluation's events), and
a dunder name in `attr` or `map_attr` fails with a `ToolError` without
being resolved. -/
theorem stage3_allowlists_enforced :
    (∀ (O : Oracles) (reg : List String) (frames : List Value)
        (prog : Stage3Program) (ev : Ev),
      ev ∈ (execute_stage3_program frames prog reg O).1 → EvValid reg ev) ∧
    (∀ (O : Oracles) (reg : List String) (frames : List Value)
        (env : List (String × Value)) (kvs : List (String × J)) (toolName : String),
      jGet kvs "op" = some (J.str "call") →
      jGet kvs "tool" = some (J.str toolName) →
      registryHas reg toolName = false →
      runStep O reg frames (J.obj kvs) env
        = ([], .exc (.toolError ("Tool not allowed: " ++ toolName)))) ∧
    (∀ (O : Oracles) (reg : List String) (frames : List Value)
        (env : List (String × Value)) (kvs : List (String × J))
        (t : List Ev) (target : Value) (method : String),
      jGet kvs "op" = some (J.str "call_method") →
      _eval_expr O frames env (jGetD kvs "target" J.null) = (t, .ok target) →
      jGet kvs "method" = some (J.str method) → method ≠ "" →
      method ∉ allowedMethods target.className →
      runStep O reg frames (J.obj kvs) env
        = (t, .exc (.toolError ("Method not allowed: " ++
            target.className ++ "." ++ method)))) ∧
    (∀ (O : Oracles) (frames : List Value) (env : List (String × Value))
        (kvs : List (String × J)) (t : List Ev) (obj : Value) (name : String),
      jGet kvs "var" = none →
      jGet kvs "ref" = some (J.str "attr") →
      _eval_expr O frames env (jGetD kvs "obj" J.null) = (t, .ok obj) →
      jGet kvs "name" = some (J.str name) → name.startsWith "__" = true →
      _eval_expr O frames env (J.obj kvs)
        = (t, .error (.toolError "Dunder attribute access is not allowed"))) ∧
    (∀ (O : Oracles) (frames : List Value) (env : List (String × Value))
        (kvs : List (String × J)) (t : List Ev) (items : Value) (attr : String),
      jGet kvs "var" = none → jGet kvs "ref" = none →
      jGet kvs "op" = some (J.str "map_attr") →
      _eval_expr O frames env (jGetD kvs "list" J.null) = (t, .ok items) →
      jGet kvs "attr" = some (J.str attr) → attr.startsWith "__" = true →
      _eval_expr O frames env (J.obj kvs)
        = (t, .error (.toolError "map_attr.attr must be a non-dunder string"))) := by
  refine ⟨?_, ?_, ?_, ?_, ?_⟩
  · intro O reg frames prog ev hev
    exact run_events O reg frames prog.steps [] ev hev
  · intro O reg frames env kvs toolName hop htool hreg
    rw [runStep]
    simp [hop, jIsStr, htool, hreg]
  · intro O reg frames env kvs t target method hop htarget hmethod hne hnotin
    rw [runStep]
    simp [hop, jIsStr, htarget, hmethod, hne, _ensure_allowed_method, hnotin]
  · intro O frames env kvs t obj name hvar href hobj hname hdund
    rw [_eval_expr]
    simp [hvar, href, jIsStr, hobj, hname, hdund]
  · intro O frames env kvs t items attr hvar href hop hlist hattr hdund
    rw [_eval_expr]
    simp [hvar, href, hop, jIsStr, hlist, hattr, hdund]

/-- Witness for C2 at concrete inputs: a registered `echo` call leaves
only a valid invocation event; an unregistered call fails with the
`ToolError` and no events. -/
theorem stage3_allowlists_enforced_witness :
    EvValid ["echo"] (Ev.toolInvoked "echo") ∧
    runStep noOracles [] [] (J.obj [("op", J.str "call"), ("tool", J.str "nope")]) []
      = ([], .exc (.toolError ("Tool not allowed: " ++ "nope"))) := by
  constructor
  · refine stage3_allowlists_enforced.1
      ⟨fun _ _ => none, fun _ _ _ => none, fun _ _ => some .vnone⟩ ["echo"] []
      ⟨[J.obj [("op", J.str "call"), ("tool", J.str "echo")]]⟩
      (Ev.toolInvoked "echo") ?_
    simp [execute_stage3_program, runSteps, runStep, evalArgs, jGet, jGetD,
      jIsStr, registryHas, saveAs]
  · exact stage3_allowlists_enforced.2.1 noOracles [] [] []
      [("op", J.str "call"), ("tool", J.str "nope")] "nope"
      (by simp [jGet]) (by simp [jGet]) (by simp [registryHas])

/-! ## Stage orchestrators (`halligan/stages/stage{1,2,3}.py`)

The retry loops.  The agent is an external callable; one attempt's body
(the agent call, `parse_json_from_response`, the validator, and the
apply/execute step) is abstracted into a per-attempt outcome `o k`:
success, or the kind of exception it raises.  `EKind.otherE` stands for
any `Exception` subclass outside {ParseError, ValidationError,
ToolError}; exceptions not derived from `Exception` (`KeyboardInterrupt`
and kin) are outside the model.  The loop structure, the caught kinds,
the reset points and the budgets are translated from the source.
`AgentEv` records the agent-visible interactions in order: the prompt of
attempt `k`, and history resets. -/

inductive EKind where
  | parseE
  | validationE
  | toolE
  | otherE
deriving DecidableEq, Repr

inductive Outcome where
  | success
  | fail (k : EKind)
deriving DecidableEq, Repr

inductive AgentEv where
  | prompted (k : Nat)
  | reset
deriving DecidableEq, Repr

/-- Result of a stage loop: a return after `n` attempts, an exception
raised after `n` attempts, or the `RuntimeError` fallback of the
`raise last_error if last_error else RuntimeError(...)` line (reachable
only if the loop body never ran). -/
inductive LoopRes where
  | ok (attemptsMade : Nat)
  | raised (attemptsMade : Nat) (e : EKind)
  | rtError (attemptsMade : Nat)
deriving DecidableEq, Repr

def LoopRes.attempts : LoopRes → Nat
  | .ok n => n
  | .raised n _ => n
  | .rtError n => n

/-- `objective_identification` (stage1.py): the agent is prompted, the
body runs; on success the agent is reset and the loop returns; a
`ParseError`/`ValidationError` is captured and the loop retries with the
feedback prompt and NO reset; any other exception propagates
immediately.  After the budget, a final reset precedes re-raising the
last captured error. -/
def stage1Go (o : Nat → Outcome) : Nat → Nat → Option EKind → List AgentEv × LoopRes
  | 0, k, last =>
    ([.reset], match last with
      | some e => .raised k e
      | none => .rtError k)
  | b + 1, k, last =>
    match o k with
    | .success => ([.prompted k, .reset], .ok (k + 1))
    | .fail e =>
      if e = .parseE ∨ e = .validationE then
        let (t, r) := stage1Go o b (k + 1) (some e)
        (.prompted k :: t, r)
      else ([.prompted k], .raised (k + 1) e)

def objective_identification_loop (o : Nat → Outcome) : List AgentEv × LoopRes :=
  stage1Go o 3 0 none

/-- `structure_abstraction` (stage2.py): identical control flow to
stage 1 with budget 3; kept separate to mirror the separate source
function. -/
def stage2Go (o : Nat → Outcome) : Nat → Nat → Option EKind → List AgentEv × LoopRes
  | 0, k, last =>
    ([.reset], match last with
      | some e => .raised k e
      | none => .rtError k)
  | b + 1, k, last =>
    match o k with
    | .success => ([.prompted k, .reset], .ok (k + 1))
    | .fail e =>
      if e = .parseE ∨ e = .validationE then
        let (t, r) := stage2Go o b (k + 1) (some e)
        (.prompted k :: t, r)
      else ([.prompted k], .raised (k + 1) e)

def structure_abstraction_loop (o : Nat → Outcome) : List AgentEv × LoopRes :=
  stage2Go o 3 0 none

/-- `solution_composition` (stage3.py): every attempt starts inside the
`try` with `agent.reset()` then the prompt; the outcome covers the agent
call, parsing and `validate_stage3`.  On success the agent is reset
again and then `vision_tools.set_agent(agent)` runs — at that point
`vision_tools` is the local *string* of tool descriptions, so the call
raises `AttributeError` (an `EKind.otherE`) on every attempt.  The
`except (ParseError, ValidationError, ToolError, Exception)` clause
catches every `Exception` subclass, so every failure is captured and the
loop retries with the feedback prompt. -/
def stage3Go (o : Nat → Outcome) : Nat → Nat → Option EKind → List AgentEv × LoopRes
  | 0, k, last =>
    ([.reset], match last with
      | some e => .raised k e
      | none => .rtError k)
  | b + 1, k, _ =>
    match o k with
    | .success =>
      let (t, r) := stage3Go o b (k + 1) (some .otherE)
      (.reset :: .prompted k :: .reset :: t, r)
    | .fail e =>
      let (t, r) := stage3Go o b (k + 1) (some e)
      (.reset :: .prompted k :: t, r)

def solution_composition_loop (o : Nat → Outcome) : List AgentEv × LoopRes :=
  stage3Go o 4 0 none

/-- Trace check: after the first prompt, every further prompt must be
preceded by a reset issued since the previous prompt.  The flag is
whether a prompt is currently allowed (initially true: the first prompt
needs no reset). -/
def promptsResetOk : Bool → List AgentEv → Bool
  | _, [] => true
  | _, .reset :: rest => promptsResetOk true rest
  | canPrompt, .prompted _ :: rest => canPrompt && promptsResetOk false rest

theorem stage1Go_attempts (o : Nat → Outcome) :
    ∀ b k last, (stage1Go o b k last).2.attempts ≤ k + b := by
  intro b
  induction b with
  | zero => intro k last; cases last <;> simp [stage1Go, LoopRes.attempts]
  | succ b ih =>
    intro k last
    rw [stage1Go]
    cases o k with
    | success => simp [LoopRes.attempts] <;> omega
    | fail e =>
      by_cases he : e = .parseE ∨ e = .validationE
      · rcases h : stage1Go o b (k + 1) (some e) with ⟨t, r⟩
        have hle := ih (k + 1) (some e)
        rw [h] at hle
        simp [LoopRes.attempts] at hle
        simp [he, h, LoopRes.attempts] <;> omega
      · simp [he, LoopRes.attempts] <;> omega

theorem stage2Go_attempts (o : Nat → Outcome) :
    ∀ b k last, (stage2Go o b k last).2.attempts ≤ k + b := by
  intro b
  induction b with
  | zero => intro k last; cases last <;> simp [stage2Go, LoopRes.attempts]
  | succ b ih =>
    intro k last
    rw [stage2Go]
    cases o k with
    | success => simp [LoopRes.attempts] <;> omega
    | fail e =>
      by_cases he : e = .parseE ∨ e = .validationE
      · rcases h : stage2Go o b (k + 1) (some e) with ⟨t, r⟩
        have hle := ih (k + 1) (some e)
        rw [h] at hle
        simp [LoopRes.attempts] at hle
        simp [he, h, LoopRes.attempts] <;> omega
      · simp [he, LoopRes.attempts] <;> omega

theorem stage3Go_attempts (o : Nat → Outcome) :
    ∀ b k last, (stage3Go o b k last).2.attempts ≤ k + b := by
  intro b
  induction b with
  | zero => intro k last; cases last <;> simp [stage3Go, LoopRes.attempts]
  | succ b ih =>
    intro k last
    rw [stage3Go]
    cases o k with
    | success =>
      rcases h : stage3Go o b (k + 1) (some .otherE) with ⟨t, r⟩
      have hle := ih (k + 1) (some .otherE)
      rw [h] at hle
      simp [LoopRes.attempts] at hle
      simp [h, LoopRes.attempts] <;> omega
    | fail e =>
      rcases h : stage3Go o b (k + 1) (some e) with ⟨t, r⟩
      have hle := ih (k + 1) (some e)
      rw [h] at hle
      simp [LoopRes.attempts] at hle
      simp [h, LoopRes.attempts] <;> omega

theorem stage3Go_raises (o : Nat → Outcome) :
    ∀ b k e0, ∃ e, (stage3Go o b k (some e0)).2 = .raised (k + b) e := by
  intro b
  induction b with
  | zero => intro k e0; exact ⟨e0, by simp [stage3Go]⟩
  | succ b ih =>
    intro k e0
    have hidx : k + (b + 1) = (k + 1) + b := by omega
    rw [stage3Go, hidx]
    cases o k with
    | success =>
      obtain ⟨e, he⟩ := ih (k + 1) .otherE
      rcases h : stage3Go o b (k + 1) (some .otherE) with ⟨t, r⟩
      rw [h] at he
      simp only [] at he
      exact ⟨e, by simp [h, he]⟩
    | fail e0head =>
      obtain ⟨e, he⟩ := ih (k + 1) e0head
      rcases h : stage3Go o b (k + 1) (some e0head) with ⟨t, r⟩
      rw [h] at he
      simp only [] at he
      exact ⟨e, by simp [h, he]⟩

theorem stage1Go_starts_prompted (o : Nat → Outcome) (b k : Nat) (last : Option EKind) :
    ∃ t, (stage1Go o (b + 1) k last).1 = .prompted k :: t := by
  rw [stage1Go]
  cases o k with
  | success => exact ⟨[.reset], rfl⟩
  | fail e =>
    by_cases he : e = .parseE ∨ e = .validationE
    · rcases h : stage1Go o b (k + 1) (some e) with ⟨t, r⟩
      exact ⟨t, by simp [he, h]⟩
    · exact ⟨[], by simp [he]⟩

theorem stage2Go_starts_prompted (o : Nat → Outcome) (b k : Nat) (last : Option EKind) :
    ∃ t, (stage2Go o (b + 1) k last).1 = .prompted k :: t := by
  rw [stage2Go]
  cases o k with
  | success => exact ⟨[.reset], rfl⟩
  | fail e =>
    by_cases he : e = .parseE ∨ e = .validationE
    · rcases h : stage2Go o b (k + 1) (some e) with ⟨t, r⟩
      exact ⟨t, by simp [he, h]⟩
    · exact ⟨[], by simp [he]⟩

theorem stage3Go_resets (o : Nat → Outcome) :
    ∀ b k last c, promptsResetOk c (stage3Go o b k last).1 = true := by
  intro b
  induction b with
  | zero => intro k last c; simp [stage3Go, promptsResetOk]
  | succ b ih =>
    intro k last c
    rw [stage3Go]
    cases o k with
    | success =>
      rcases h : stage3Go o b (k + 1) (some .otherE) with ⟨t, r⟩
      have ht := ih (k + 1) (some .otherE) true
      rw [h] at ht
      simp [h, promptsResetOk, ht]
    | fail e =>
      rcases h : stage3Go o b (k + 1) (some e) with ⟨t, r⟩
      have ht := ih (k + 1) (some e) false
      rw [h] at ht
      simp [h, promptsResetOk, ht]

/-- If every attempt fails with a retryable kind, stage 1 consumes its
whole budget and raises the kind of the last attempt. -/
theorem stage1Go_all_retryable (o : Nat → Outcome)
    (hall : ∀ j, o j = .fail .parseE ∨ o j = .fail .validationE) :
    ∀ b k last, ∃ e, o (k + b) = .fail e ∧
      (stage1Go o (b + 1) k last).2 = .raised (k + b + 1) e := by
  intro b
  induction b with
  | zero =>
    intro k last
    obtain ⟨e0, h, hor⟩ : ∃ e0, o k = .fail e0 ∧ (e0 = .parseE ∨ e0 = .validationE) := by
      rcases hall k with h | h
      · exact ⟨_, h, Or.inl rfl⟩
      · exact ⟨_, h, Or.inr rfl⟩
    refine ⟨e0, by simpa using h, ?_⟩
    rw [stage1Go]
    simp only [h]
    rw [if_pos hor]
    simp [stage1Go]
  | succ b ih =>
    intro k last
    obtain ⟨e0, h, hor⟩ : ∃ e0, o k = .fail e0 ∧ (e0 = .parseE ∨ e0 = .validationE) := by
      rcases hall k with h | h
      · exact ⟨_, h, Or.inl rfl⟩
      · exact ⟨_, h, Or.inr rfl⟩
    obtain ⟨e, he, hres⟩ := ih (k + 1) (some e0)
    rcases h2 : stage1Go o (b + 1) (k + 1) (some e0) with ⟨t, r⟩
    rw [h2] at hres
    have hk : k + 1 + b = k + (b + 1) := by omega
    have hk2 : k + 1 + b + 1 = k + (b + 1) + 1 := by omega
    refine ⟨e, by rwa [hk] at he, ?_⟩
    rw [stage1Go]
    simp only [h]
    rw [if_pos hor]
    rw [h2]
    exact hk2 ▸ hres

/-- Stage-2 analogue of the all-retryable exhaustion lemma. -/
theorem stage2Go_all_retryable (o : Nat → Outcome)
    (hall : ∀ j, o j = .fail .parseE ∨ o j = .fail .validationE) :
    ∀ b k last, ∃ e, o (k + b) = .fail e ∧
      (stage2Go o (b + 1) k last).2 = .raised (k + b + 1) e := by
  intro b
  induction b with
  | zero =>
    intro k last
    obtain ⟨e0, h, hor⟩ : ∃ e0, o k = .fail e0 ∧ (e0 = .parseE ∨ e0 = .validationE) := by
      rcases hall k with h | h
      · exact ⟨_, h, Or.inl rfl⟩
      · exact ⟨_, h, Or.inr rfl⟩
    refine ⟨e0, by simpa using h, ?_⟩
    rw [stage2Go]
    simp only [h]
    rw [if_pos hor]
    simp [stage2Go]
  | succ b ih =>
    intro k last
    obtain ⟨e0, h, hor⟩ : ∃ e0, o k = .fail e0 ∧ (e0 = .parseE ∨ e0 = .validationE) := by
      rcases hall k with h | h
      · exact ⟨_, h, Or.inl rfl⟩
      · exact ⟨_, h, Or.inr rfl⟩
    obtain ⟨e, he, hres⟩ := ih (k + 1) (some e0)
    rcases h2 : stage2Go o (b + 1) (k + 1) (some e0) with ⟨t, r⟩
    rw [h2] at hres
    have hk : k + 1 + b = k + (b + 1) := by omega
    have hk2 : k + 1 + b + 1 = k + (b + 1) + 1 := by omega
    refine ⟨e, by rwa [hk] at he, ?_⟩
    rw [stage2Go]
    simp only [h]
    rw [if_pos hor]
    rw [h2]
    exact hk2 ▸ hres

/-- Stage 3 always exhausts its budget and raises the capture of the
last attempt: that attempt's exception kind, or the `AttributeError`
from `vision_tools.set_agent` modelled as `otherE` when the attempt body
itself succeeded. -/
theorem stage3Go_last (o : Nat → Outcome) :
    ∀ b k last, (stage3Go o (b + 1) k last).2
      = .raised (k + b + 1) (match o (k + b) with | .success => .otherE | .fail e => e) := by
  intro b
  induction b with
  | zero =>
    intro k last
    rw [stage3Go]
    cases h : o k <;> simp [stage3Go, h]
  | succ b ih =>
    intro k last
    have hk : k + 1 + b = k + (b + 1) := by omega
    have hk2 : k + 1 + b + 1 = k + (b + 1) + 1 := by omega
    rw [stage3Go]
    cases h : o k with
    | success =>
      have hres := ih (k + 1) (some .otherE)
      rcases h2 : stage3Go o (b + 1) (k + 1) (some .otherE) with ⟨t, r⟩
      rw [h2] at hres
      rw [hk] at hres
      exact hres
    | fail e =>
      have hres := ih (k + 1) (some e)
      rcases h2 : stage3Go o (b + 1) (k + 1) (some e) with ⟨t, r⟩
      rw [h2] at hres
      rw [hk] at hres
      simp only [h2]
      exact hres

/-- Every stage-3 window of the loop begins with a reset and the prompt
of the current attempt (the reset is inside the try, before the agent
call). -/
theorem stage3Go_starts (o : Nat → Outcome) (b k : Nat) (last : Option EKind) :
    ∃ t, (stage3Go o (b + 1) k last).1 = .reset :: .prompted k :: t := by
  rw [stage3Go]
  cases h : o k with
  | success =>
    rcases h2 : stage3Go o b (k + 1) (some .otherE) with ⟨t, r⟩
    exact ⟨.reset :: t, by simp [h2]⟩
  | fail e =>
    rcases h2 : stage3Go o b (k + 1) (some e) with ⟨t, r⟩
    exact ⟨t, by simp [h2]⟩

/-- C7: each orchestrator makes at most its budget of attempts — 3, 3
and 4 — and on exhaustion raises the last captured error: if every
stage-1/2 attempt fails retryably the loop raises after exactly 3
attempts with attempt 2's kind, and stage 3 always raises after exactly
4 attempts with the capture of attempt 3 (its exception kind, or the
`set_agent` `AttributeError` when the body succeeded). -/
theorem stage_attempt_budgets :
    (∀ o, (objective_identification_loop o).2.attempts ≤ 3) ∧
    (∀ o, (structure_abstraction_loop o).2.attempts ≤ 3) ∧
    (∀ o, (solution_composition_loop o).2.attempts ≤ 4) ∧
    (∀ o, (∀ j, o j = .fail .parseE ∨ o j = .fail .validationE) →
      ∃ e, o 2 = .fail e ∧ (objective_identification_loop o).2 = .raised 3 e) ∧
    (∀ o, (∀ j, o j = .fail .parseE ∨ o j = .fail .validationE) →
      ∃ e, o 2 = .fail e ∧ (structure_abstraction_loop o).2 = .raised 3 e) ∧
    (∀ o, (solution_composition_loop o).2
      = .raised 4 (match o 3 with | .success => .otherE | .fail e => e)) := by
  refine ⟨?_, ?_, ?_, ?_, ?_, ?_⟩
  · intro o
    simpa [objective_identification_loop] using stage1Go_attempts o 3 0 none
  · intro o
    simpa [structure_abstraction_loop] using stage2Go_attempts o 3 0 none
  · intro o
    simpa [solution_composition_loop] using stage3Go_attempts o 4 0 none
  · intro o hall
    obtain ⟨e, he, hres⟩ := stage1Go_all_retryable o hall 2 0 none
    exact ⟨e, by simpa using he, by simpa [objective_identification_loop] using hres⟩
  · intro o hall
    obtain ⟨e, he, hres⟩ := stage2Go_all_retryable o hall 2 0 none
    exact ⟨e, by simpa using he, by simpa [structure_abstraction_loop] using hres⟩
  · intro o
    simpa [solution_composition_loop] using stage3Go_last o 3 0 none

/-- Witness for C7: with every attempt failing with ParseError, stage 1
raises ParseError after 3 attempts; with ValidationError throughout,
stage 2 raises ValidationError after 3 attempts. -/
theorem stage_attempt_budgets_witness :
    ((objective_identification_loop (fun _ => .fail .parseE)).2 = .raised 3 .parseE) ∧
    ((structure_abstraction_loop (fun _ => .fail .validationE)).2 = .raised 3 .validationE) := by
  constructor
  · obtain ⟨e, he, hres⟩ :=
      stage_attempt_budgets.2.2.2.1 (fun _ => Outcome.fail .parseE) (fun _ => Or.inl rfl)
    cases e <;> simp_all
  · obtain ⟨e, he, hres⟩ :=
      stage_attempt_budgets.2.2.2.2.1 (fun _ => Outcome.fail .validationE) (fun _ => Or.inr rfl)
    cases e <;> simp_all

/-- C4 counterexample: an exception of an unexpected kind (outside
ParseError, ValidationError, ToolError) raised during a stage-3 attempt
is NOT propagated to the caller: the `except (ParseError,
ValidationError, ToolError, Exception)` clause catches it, the loop
prompts all 4 attempts and only then re-raises it. -/
theorem stage3_catches_unexpected_exceptions :
    solution_composition_loop (fun _ => .fail .otherE)
      = ([.reset, .prompted 0, .reset, .prompted 1, .reset, .prompted 2,
          .reset, .prompted 3, .reset], .raised 4 .otherE) := rfl

/-- C4 (amended): stages 1 and 2 catch only ParseError and
ValidationError — any other kind propagates immediately after the
failing attempt, with no further prompt; stage 3's except clause also
names `Exception`, so every failure kind is swallowed and followed by a
retry prompt while budget remains. -/
theorem stage_catch_policy :
    (∀ o b k last e, o k = .fail e → ¬(e = .parseE ∨ e = .validationE) →
      stage1Go o (b + 1) k last = ([.prompted k], .raised (k + 1) e)) ∧
    (∀ o b k last e, o k = .fail e → ¬(e = .parseE ∨ e = .validationE) →
      stage2Go o (b + 1) k last = ([.prompted k], .raised (k + 1) e)) ∧
    (∀ o b k last e, o k = .fail e →
      ∃ t, (stage3Go o (b + 2) k last).1
        = .reset :: .prompted k :: .reset :: .prompted (k + 1) :: t) := by
  refine ⟨?_, ?_, ?_⟩
  · intro o b k last e ho he
    rw [stage1Go]
    simp only [ho]
    rw [if_neg he]
  · intro o b k last e ho he
    rw [stage2Go]
    simp only [ho]
    rw [if_neg he]
  · intro o b k last e ho
    obtain ⟨t1, ht1⟩ := stage3Go_starts o b (k + 1) (some e)
    rcases h2 : stage3Go o (b + 1) (k + 1) (some e) with ⟨t0, r0⟩
    rw [h2] at ht1
    simp only [] at ht1
    refine ⟨t1, ?_⟩
    rw [stage3Go]
    simp only [ho]
    rw [h2]
    simp [ht1]

/-- Witness for C4 at concrete inputs: a ToolError on stage 1's first
attempt propagates at once; same for an unexpected kind in stage 2;
stage 3 swallows an unexpected kind and prompts a retry. -/
theorem stage_catch_policy_witness :
    stage1Go (fun _ => .fail .toolE) 3 0 none = ([.prompted 0], .raised 1 .toolE) ∧
    stage2Go (fun _ => .fail .otherE) 3 0 none = ([.prompted 0], .raised 1 .otherE) ∧
    ∃ t, (stage3Go (fun _ => .fail .otherE) 2 0 none).1
      = .reset :: .prompted 0 :: .reset :: .prompted 1 :: t :=
  ⟨stage_catch_policy.1 _ 2 0 none .toolE rfl (by decide),
   stage_catch_policy.2.1 _ 2 0 none .otherE rfl (by decide),
   stage_catch_policy.2.2 _ 0 0 none .otherE rfl⟩

/-- C5 counterexample: in stage 1 a retryable failure is followed by the
retry prompt with NO reset in between — the trace under always-ParseError
is three consecutive prompts and only a final reset, which violates the
reset-before-retry-prompt discipline. -/
theorem stages12_no_reset_before_retry :
    (objective_identification_loop (fun _ => .fail .parseE)).1
      = [.prompted 0, .prompted 1, .prompted 2, .reset] ∧
    promptsResetOk true (objective_identification_loop (fun _ => .fail .parseE)).1 = false :=
  ⟨rfl, rfl⟩

/-- C5 (amended): stage 3 resets the agent at the top of every attempt,
so every prompt (first and retries) is preceded by a reset; stages 1 and
2 never reset between a retryable failure and the retry prompt, so after
a first-attempt retryable failure their traces violate the
reset-before-retry-prompt discipline. -/
theorem reset_before_retry_policy :
    (∀ o c, promptsResetOk c (solution_composition_loop o).1 = true) ∧
    (∀ o e, o 0 = .fail e → (e = .parseE ∨ e = .validationE) →
      promptsResetOk true (objective_identification_loop o).1 = false) ∧
    (∀ o e, o 0 = .fail e → (e = .parseE ∨ e = .validationE) →
      promptsResetOk true (structure_abstraction_loop o).1 = false) := by
  refine ⟨?_, ?_, ?_⟩
  · intro o c
    exact stage3Go_resets o 4 0 none c
  · intro o e ho he
    obtain ⟨t, ht⟩ := stage1Go_starts_prompted o 1 1 (some e)
    rcases h2 : stage1Go o 2 1 (some e) with ⟨t0, r0⟩
    rw [h2] at ht
    simp only [] at ht
    show promptsResetOk true (stage1Go o 3 0 none).1 = false
    rw [stage1Go]
    simp only [ho]
    rw [if_pos he]
    rw [h2]
    simp [ht, promptsResetOk]
  · intro o e ho he
    obtain ⟨t, ht⟩ := stage2Go_starts_prompted o 1 1 (some e)
    rcases h2 : stage2Go o 2 1 (some e) with ⟨t0, r0⟩
    rw [h2] at ht
    simp only [] at ht
    show promptsResetOk true (stage2Go o 3 0 none).1 = false
    rw [stage2Go]
    simp only [ho]
    rw [if_pos he]
    rw [h2]
    simp [ht, promptsResetOk]

/-- Witness for C5 at concrete inputs: stage 3's trace under a constant
ToolError satisfies the discipline; stages 1 and 2 violate it after a
first-attempt retryable failure. -/
theorem reset_before_retry_policy_witness :
    promptsResetOk true (solution_composition_loop (fun _ => .fail .toolE)).1 = true ∧
    promptsResetOk true (objective_identification_loop (fun _ => .fail .parseE)).1 = false ∧
    promptsResetOk true (structure_abstraction_loop (fun _ => .fail .validationE)).1 = false :=
  ⟨reset_before_retry_policy.1 _ true,
   reset_before_retry_policy.2.1 _ .parseE rfl (Or.inl rfl),
   reset_before_retry_policy.2.2 _ .validationE rfl (Or.inr rfl)⟩

end Halligan
